import Mathlib

/-!
# Silentcast: the selection-rectangle engine of `main.c`

A shallow embedding of the rectangle arithmetic of `src/silentcast3/src/main.c`
and theorems about it.

Modelling conventions.

* C `int` is `Int`, and the theorems speak about the mathematical result of
  each expression, with one exception.  The clamp step of `draw_rect` compares
  the sums `x + width` and `y + height` with the monitor size, and a sum that
  leaves the range of `int` wraps around on the machines the program runs on:
  `draw_rect_clamp_int32` is the clamp step in 32-bit arithmetic (`wrap_int`),
  and the theorems on what the clamp step guarantees (C2, C3) are stated for
  it.  `draw_rect_clamp` is the same step over the integers; the two agree
  wherever the sums stay in range (`draw_rect_clamp_int32_eq`).
* C `double` is `Double`, the rational number a finite binary64 value
  denotes.  Every arithmetic operation of the source whose result has to be
  rounded goes through `fl`, rounding to the nearest number with a 53-bit
  significand, ties to even (the default IEEE 754 mode).  The exponent range
  is not bounded and there are no infinities or NaNs; the quantities of
  `main.c` (screen coordinates and their `w + h/100000` encodings) stay far
  from both ends of the binary64 exponent range.
* `gboolean` is `Bool`; the data attached to the widget with `P_SET` is the
  record `Session`.
* The C library functions `modf`, `rint`, `printf` with `%f` and `snprintf`
  are modelled as the C standard describes them; text is a list of
  characters.
* `PRESET_N`, `get_w`, `get_h` and `get_presets` are declared in
  `SC_conf_widgets.h`, which is not part of the sources at hand: the preset
  table is a parameter (a list of `PRESET_N` doubles) and `get_w`/`get_h`
  are modelled from the specification.
-/

namespace Silentcast

/-! ## The `double` model -/

/-- Finite values of the C type `double`, each identified with the rational
number it denotes. -/
abbrev Double := ℚ

/-- Nearest integer, ties to the even neighbour. -/
def roundHalfEven (q : ℚ) : ℤ :=
  if q - ⌊q⌋ < 1 / 2 then ⌊q⌋
  else if 1 / 2 < q - ⌊q⌋ then ⌊q⌋ + 1
  else if ⌊q⌋ % 2 = 0 then ⌊q⌋ else ⌊q⌋ + 1

/-- The unit in the last place of the binary64 binade of `q`:
`2 ^ (e - 52)` where `2 ^ e ≤ |q| < 2 ^ (e + 1)`. -/
def ulp (q : ℚ) : ℚ := (2 : ℚ) ^ (Int.log 2 |q| - 52)

/-- Rounding of an exact result to binary64: nearest multiple of the unit in
the last place, ties to even. -/
def fl (q : ℚ) : Double :=
  if q = 0 then 0 else (roundHalfEven (q / ulp q) : ℚ) * ulp q

/-- Addition of doubles, `a + b` in C. -/
def dadd (a b : Double) : Double := fl (a + b)

/-- Subtraction of doubles, `a - b` in C. -/
def dsub (a b : Double) : Double := fl (a - b)

/-- Multiplication of doubles, `a * b` in C. -/
def dmul (a b : Double) : Double := fl (a * b)

/-- Division of doubles, `a / b` in C. -/
def ddiv (a b : Double) : Double := fl (a / b)

/-- Conversion `(double) n` of an `int`. -/
def ofInt (n : Int) : Double := fl (n : ℚ)

/-- Truncation toward zero. -/
def truncZ (q : ℚ) : ℤ := if 0 ≤ q then ⌊q⌋ else ⌈q⌉

/-- Conversion `(int) d` of a double: truncation toward zero. -/
def toInt (d : Double) : Int := truncZ d

/-- The C library function `modf`: the pair (fractional part, integral part),
both carrying the sign of the argument.  Both parts of a double are doubles,
so nothing is rounded. -/
def modf (v : Double) : Double × Double := (v - (truncZ v : ℚ), (truncZ v : ℚ))

/-- The C library function `rint` in the default rounding mode. -/
def rint (v : Double) : Double := (roundHalfEven v : ℚ)

/-! ## Rectangles and the widget data -/

/-- The GDK rectangle: four C `int` fields. -/
structure GdkRectangle where
  x : Int
  y : Int
  width : Int
  height : Int
deriving DecidableEq, Repr

/-- The scroll directions of GDK. -/
inductive GdkScrollDirection where
  | GDK_SCROLL_UP
  | GDK_SCROLL_DOWN
  | GDK_SCROLL_LEFT
  | GDK_SCROLL_RIGHT
  | GDK_SCROLL_SMOOTH
deriving DecidableEq, Repr

/-- The data `setup_widget_data_pointers` and `configure_surface_cb` attach to
the surface widget, together with the static locals of
`toggle_fullscreen_area`. -/
structure Session where
  area_rect : GdkRectangle
  surface_rect : GdkRectangle
  surface_became_fullscreen : Bool
  area : String
  actv_win : GdkRectangle
  extents : GdkRectangle
  include_extents : Bool
  previous : Double × Double
  presets : List Double
  should_resize_active : Bool
  dx : Int
  dy : Int
  dw : Int
  dh : Int
  area_is_fullscreen : Bool
  prev_x : Int
  prev_y : Int
  prev_w : Int
  prev_h : Int

/-! ## Helpers declared in `SC_conf_widgets.h` -/

/-- Modelled from the spec: `get_w` of `SC_conf_widgets.c`, the accessor
`widthOf(entry)` recovering the width from the combined-metric encoding:
`floor(value)`. -/
def get_w (preset : Double) : Double := (⌊preset⌋ : ℚ)

/-- Modelled from the spec: `get_h` of `SC_conf_widgets.c`, the accessor
`heightOf(entry)` recovering the height from the combined-metric encoding:
`round(10^5 * fractional part)`. -/
def get_h (preset : Double) : Double := rint (dmul 100000 (preset - (⌊preset⌋ : ℚ)))

/-! ## The functions of `main.c` -/

/-- C truth value of an `int`. -/
def nonzero (n : Int) : Bool := n != 0

/-- `set_rect_around_active_window` (main.c 39-54).  The second component
tells whether the error line was written to `stderr`. -/
def set_rect_around_active_window (rect p_actv_win p_extents : GdkRectangle)
    (p_include_extents : Bool) : GdkRectangle × Bool :=
  if nonzero p_extents.width && nonzero p_extents.height &&
      (p_include_extents || !(nonzero p_actv_win.width && nonzero p_actv_win.height)) then
    ({ rect with width := p_extents.width, height := p_extents.height,
                 x := p_extents.x, y := p_extents.y }, false)
  else if nonzero p_actv_win.width && nonzero p_actv_win.height then
    ({ rect with width := p_actv_win.width, height := p_actv_win.height,
                 x := p_actv_win.x, y := p_actv_win.y }, false)
  else (rect, true)

/-- The encoding `(double) a + (double) b / 100000` of a pair of `int`s in one
double (main.c 261, 723 and 724). -/
def metric (a b : Int) : Double := dadd (ofInt a) (ddiv (ofInt b) 100000)

/-- `set_rect_around_center_fourth` (main.c 56-62); C integer division
truncates toward zero. -/
def set_rect_around_center_fourth (rect p_surface_rect : GdkRectangle) : GdkRectangle :=
  { rect with width := Int.tdiv p_surface_rect.width 2,
              height := Int.tdiv p_surface_rect.height 2,
              x := Int.tdiv p_surface_rect.width 4,
              y := Int.tdiv p_surface_rect.height 4 }

/-- `set_rect_to_previous` (main.c 64-73). -/
def set_rect_to_previous (rect : GdkRectangle) (previous : Double × Double) : GdkRectangle :=
  let x := (modf previous.1).2
  let y := dmul 100000 (modf previous.1).1
  let w := (modf previous.2).2
  let h := dmul 100000 (modf previous.2).1
  { rect with x := toInt (rint x), y := toInt (rint y),
              width := toInt (rint w), height := toInt (rint h) }

/-- The two entries `pre[PRESET_N]` and `pre[PRESET_N + 1]` that
`write_previous` computes from the final rectangle (main.c 723-724). -/
def write_previous_pair (previous : GdkRectangle) : Double × Double :=
  (metric previous.x previous.y, metric previous.width previous.height)

/-- The array `pre` of `write_previous` (main.c 720-724): the preset table
followed by the two entries of the final rectangle. -/
def write_previous_pre (presets : List Double) (previous : GdkRectangle) : List Double :=
  presets ++ [(write_previous_pair previous).1, (write_previous_pair previous).2]

/-- The initialisation step of `draw_rect` (main.c 148-157), run once after
the surface became fullscreen. -/
def draw_rect_init (s : Session) : Session :=
  if s.surface_became_fullscreen then
    if s.area = "e" || s.area = "i" then
      { s with surface_became_fullscreen := false,
               area_rect := (set_rect_around_active_window s.area_rect s.actv_win
                              s.extents s.include_extents).1 }
    else if s.area = "c" then
      { s with surface_became_fullscreen := false,
               area_rect := set_rect_around_center_fourth s.area_rect s.surface_rect }
    else
      { s with surface_became_fullscreen := false,
               area_rect := set_rect_to_previous s.area_rect s.previous }
  else s

/-- The clamp step of `draw_rect` (main.c 159-169): keep the rectangle from
passing the lower right corner of the monitor.  The sums and differences are
those of the integers; `draw_rect_clamp_int32` below has them wrap around. -/
def draw_rect_clamp (mon_width mon_height : Int) (r : GdkRectangle) : GdkRectangle :=
  let r1 : GdkRectangle :=
    if r.x + r.width > mon_width then
      if r.width ≥ mon_width then { r with x := 0, width := mon_width }
      else { r with x := mon_width - r.width }
    else r
  if r1.y + r1.height > mon_height then
    if r1.height ≥ mon_height then { r1 with y := 0, height := mon_height }
    else { r1 with y := mon_height - r1.height }
  else r1

/-- Two's complement wrap-around of a result to the 32 bits of a C `int`. -/
def wrap_int (n : Int) : Int := (n + 2147483648) % 4294967296 - 2147483648

/-- The values of a C `int`: `INT_MIN ≤ n ≤ INT_MAX`. -/
@[reducible] def is_int (n : Int) : Prop := -2147483648 ≤ n ∧ n ≤ 2147483647

/-- The rectangles whose four fields are values of a C `int`. -/
@[reducible] def rect_is_int (r : GdkRectangle) : Prop :=
  is_int r.x ∧ is_int r.y ∧ is_int r.width ∧ is_int r.height

/-- The clamp step of `draw_rect` (main.c 159-169) with the sums and
differences of the source evaluated in 32-bit `int` arithmetic: a result
outside the range of `int` wraps around.  Where nothing overflows this is
`draw_rect_clamp`. -/
def draw_rect_clamp_int32 (mon_width mon_height : Int) (r : GdkRectangle) : GdkRectangle :=
  let r1 : GdkRectangle :=
    if wrap_int (r.x + r.width) > mon_width then
      if r.width ≥ mon_width then { r with x := 0, width := mon_width }
      else { r with x := wrap_int (mon_width - r.width) }
    else r
  if wrap_int (r1.y + r1.height) > mon_height then
    if r1.height ≥ mon_height then { r1 with y := 0, height := mon_height }
    else { r1 with y := wrap_int (mon_height - r1.height) }
  else r1

/-- The geometry `draw_rect` passes to `gdk_window_move_resize`
(main.c 214-223), if any. -/
def draw_rect_mirror (s : Session) : Option GdkRectangle :=
  if s.should_resize_active then
    if s.include_extents then
      some ⟨s.area_rect.x - s.dx, s.area_rect.y - s.dy,
            s.area_rect.width - s.dw, s.area_rect.height - s.dh⟩
    else some ⟨s.area_rect.x, s.area_rect.y, s.area_rect.width, s.area_rect.height⟩
  else none

/-- `draw_rect` (main.c 143-224) on the widget data: initialisation, clamp,
and the geometry handed to the window system.  The cairo drawing itself does
not touch the rectangle. -/
def draw_rect (s : Session) : Session × Option GdkRectangle :=
  let s1 := draw_rect_init s
  let r := draw_rect_clamp s1.surface_rect.width s1.surface_rect.height s1.area_rect
  let s2 := { s1 with area_rect := r }
  (s2, draw_rect_mirror s2)

/-- `position_rect` (main.c 226-229). -/
def position_rect (x y : Int) (p_area_rect : GdkRectangle) : GdkRectangle :=
  { p_area_rect with x := x, y := y }

/-- The loop `while (i > 0 && !(presets[i] < widthheight)) i--;`
(main.c 250 and 267), started at index `i`.  The callers start it at
`PRESET_N - 1`; `PRESET_N` is taken to be at least 1. -/
def search_down (presets : List Double) (widthheight : Double) : Nat → Nat
  | 0 => 0
  | i + 1 =>
    if !(decide (presets.getD (i + 1) 0 < widthheight)) then search_down presets widthheight i
    else i + 1

/-- The loop `while (i < PRESET_N - 1 && !(presets[i] > widthheight)) i++;`
(main.c 271), started at index `i` with `n = PRESET_N - 1 - i` indices left
before the bound. -/
def search_up (presets : List Double) (widthheight : Double) : Nat → Nat → Nat
  | 0, i => i
  | n + 1, i =>
    if !(decide (presets.getD i 0 > widthheight)) then search_up presets widthheight n (i + 1)
    else i

/-- The origin of `drag_resize_to_preset` after the push (main.c 233-240),
as the doubles `rleft` and `rupper`. -/
def drag_origin (right lower : Double) (p_area_rect : GdkRectangle) : Double × Double :=
  let rleft := ofInt p_area_rect.x
  let rupper := ofInt p_area_rect.y
  (if dsub right rleft < 16 then dsub right 16 else rleft,
   if dsub lower rupper < 16 then dsub lower 16 else rupper)

/-- The value `widthheight` of `drag_resize_to_preset` (main.c 244-246). -/
def drag_widthheight (right lower : Double) (p_area_rect : GdkRectangle) : Double :=
  let o := drag_origin right lower p_area_rect
  let right1 := (modf right).2
  let lower1 := (modf lower).2
  dadd (dsub right1 o.1) (ddiv (dsub lower1 o.2) 100000)

/-- `drag_resize_to_preset` (main.c 231-256); `presets.length` is
`PRESET_N`. -/
def drag_resize_to_preset (right lower : Double) (presets : List Double)
    (p_area_rect : GdkRectangle) : GdkRectangle :=
  let o := drag_origin right lower p_area_rect
  let widthheight := drag_widthheight right lower p_area_rect
  let i := search_down presets widthheight (presets.length - 1)
  { p_area_rect with x := toInt o.1, y := toInt o.2,
                     width := toInt (get_w (presets.getD i 0)),
                     height := toInt (get_h (presets.getD i 0)) }

/-- The value `widthheight` of `scroll_resize_to_preset` (main.c 261). -/
def scroll_widthheight (p_area_rect : GdkRectangle) : Double :=
  metric p_area_rect.width p_area_rect.height

/-- The index `scroll_resize_to_preset` ends with (main.c 262-272). -/
def scroll_index (direction : GdkScrollDirection) (p_area_rect : GdkRectangle)
    (presets : List Double) : Nat :=
  if direction = GdkScrollDirection.GDK_SCROLL_UP then
    search_down presets (scroll_widthheight p_area_rect) (presets.length - 1)
  else if direction = GdkScrollDirection.GDK_SCROLL_DOWN then
    search_up presets (scroll_widthheight p_area_rect) (presets.length - 1) 0
  else 0

/-- `scroll_resize_to_preset` (main.c 258-277); `presets.length` is
`PRESET_N`. -/
def scroll_resize_to_preset (direction : GdkScrollDirection) (p_area_rect : GdkRectangle)
    (presets : List Double) : GdkRectangle :=
  if direction = GdkScrollDirection.GDK_SCROLL_UP ∨
      direction = GdkScrollDirection.GDK_SCROLL_DOWN then
    let i := scroll_index direction p_area_rect presets
    { p_area_rect with width := toInt (get_w (presets.getD i 0)),
                       height := toInt (get_h (presets.getD i 0)) }
  else p_area_rect

/-- `resize_rect` (main.c 279-285). -/
def resize_rect (right lower : Int) (p_area_rect : GdkRectangle) : GdkRectangle :=
  let r1 : GdkRectangle :=
    if right - p_area_rect.x < 16 then { p_area_rect with x := right - 16 } else p_area_rect
  let r2 : GdkRectangle :=
    if lower - r1.y < 16 then { r1 with y := lower - 16 } else r1
  { r2 with width := right - r2.x, height := lower - r2.y }

/-- `toggle_fullscreen_area` (main.c 479-499).  `alloc_width` and
`alloc_height` are what `gtk_widget_get_allocated_width` and
`gtk_widget_get_allocated_height` return for the surface widget. -/
def toggle_fullscreen_area (alloc_width alloc_height : Int) (s : Session) :
    Session × Option GdkRectangle :=
  if !s.area_is_fullscreen then
    draw_rect { s with area_is_fullscreen := true,
                       prev_y := s.area_rect.y, prev_x := s.area_rect.x,
                       prev_w := s.area_rect.width, prev_h := s.area_rect.height,
                       area_rect := { s.area_rect with
                                      y := 0, x := 0,
                                      width := alloc_width, height := alloc_height } }
  else
    draw_rect { s with area_is_fullscreen := false,
                       area_rect := { s.area_rect with
                                      y := s.prev_y, x := s.prev_x,
                                      width := s.prev_w, height := s.prev_h } }

/-- The widget data as `setup_widget_data_pointers` (main.c 635-693) and
`configure_surface_cb` (main.c 696-716) leave it: the geometry of the active
window, its extents and the surface come from the window system, the preset
table and the previous pair from `get_presets`, the area mode from
`get_conf`.  The static locals of `toggle_fullscreen_area` start at zero. -/
def setup_widget_data_pointers (actv_win extents surface_rect : GdkRectangle)
    (presets : List Double) (previous : Double × Double) (area : String) : Session :=
  { area_rect := ⟨130, 130, 260, 260⟩
    surface_rect := surface_rect
    surface_became_fullscreen := false
    area := area
    actv_win := actv_win
    extents := extents
    include_extents := true
    previous := previous
    presets := presets
    should_resize_active := false
    dx := extents.x - actv_win.x
    dy := extents.y - actv_win.y
    dw := extents.width - actv_win.width
    dh := extents.height - actv_win.height
    area_is_fullscreen := false
    prev_x := 0
    prev_y := 0
    prev_w := 0
    prev_h := 0 }

/-! ## The event callbacks -/

/-- Button numbers of GDK (`GDK_BUTTON_PRIMARY`, `GDK_BUTTON_MIDDLE`,
`GDK_BUTTON_SECONDARY` of the GDK headers). -/
def GDK_BUTTON_PRIMARY : Nat := 1

/-- The middle mouse button. -/
def GDK_BUTTON_MIDDLE : Nat := 2

/-- The right mouse button. -/
def GDK_BUTTON_SECONDARY : Nat := 3

/-- Modifier bit of the first mouse button in `event->state`. -/
def GDK_BUTTON1_MASK : Nat := 256

/-- Modifier bit of the second mouse button in `event->state`. -/
def GDK_BUTTON2_MASK : Nat := 512

/-- Modifier bit of the third mouse button in `event->state`. -/
def GDK_BUTTON3_MASK : Nat := 1024

/-- Key value of F11 (`0xffc8` in `gdkkeysyms.h`). -/
def GDK_KEY_F11 : Nat := 65480

/-- `button_press_event_cb` (main.c 507-533) on the widget data, the surface
being there. -/
def button_press_event_cb (button : Nat) (x y : Double) (s : Session) : Session :=
  if button = GDK_BUTTON_PRIMARY then
    (draw_rect { s with area_rect := position_rect (toInt x) (toInt y) s.area_rect }).1
  else if button = GDK_BUTTON_SECONDARY then
    (draw_rect { s with area_rect := resize_rect (toInt x) (toInt y) s.area_rect }).1
  else if button = GDK_BUTTON_MIDDLE then
    (draw_rect { s with include_extents := !s.include_extents,
                        area_rect := (set_rect_around_active_window s.area_rect s.actv_win
                                       s.extents (!s.include_extents)).1 }).1
  else s

/-- `scroll_event_cb` (main.c 539-555) on the widget data, the surface being
there. -/
def scroll_event_cb (direction : GdkScrollDirection) (s : Session) : Session :=
  (draw_rect { s with area_rect := scroll_resize_to_preset direction s.area_rect s.presets }).1

/-- `motion_notify_event_cb` (main.c 562-587) on the widget data, the surface
being there; the `int` parameters of `position_rect` and `resize_rect`
receive the truncated event coordinates. -/
def motion_notify_event_cb (state : Nat) (x y : Double) (s : Session) : Session :=
  if state &&& GDK_BUTTON1_MASK ≠ 0 then
    (draw_rect { s with area_rect := position_rect (toInt x) (toInt y) s.area_rect }).1
  else if state &&& GDK_BUTTON2_MASK ≠ 0 then
    (draw_rect { s with area_rect := drag_resize_to_preset x y s.presets s.area_rect }).1
  else if state &&& GDK_BUTTON3_MASK ≠ 0 then
    (draw_rect { s with area_rect := resize_rect (toInt x) (toInt y) s.area_rect }).1
  else s

/-- `key_event_cb` (main.c 589-616) on the widget data: F11 toggles the
fullscreen area, the other keys open dialogs, start the recording or quit
and leave the widget data alone.  `alloc_width` and `alloc_height` are the
allocated size of the surface widget at the time of the key event. -/
def key_event_cb (keyval : Nat) (alloc_width alloc_height : Int) (s : Session) : Session :=
  if keyval = GDK_KEY_F11 then (toggle_fullscreen_area alloc_width alloc_height s).1 else s

/-- The input events the surface widget is connected to in `activate`
(main.c 800-807). -/
inductive Event where
  | button_press (button : Nat) (x y : Double)
  | scroll (direction : GdkScrollDirection)
  | motion_notify (state : Nat) (x y : Double)
  | key_release (keyval : Nat) (alloc_width alloc_height : Int)

/-- Dispatch of one event to its callback. -/
def handle_event (e : Event) (s : Session) : Session :=
  match e with
  | Event.button_press button x y => button_press_event_cb button x y s
  | Event.scroll direction => scroll_event_cb direction s
  | Event.motion_notify state x y => motion_notify_event_cb state x y s
  | Event.key_release keyval aw ah => key_event_cb keyval aw ah s

/-- The widget data after a sequence of events, oldest first. -/
def run_events (events : List Event) (s : Session) : Session :=
  events.foldl (fun t e => handle_event e t) s

/-- Whether an event makes `key_event_cb` call `toggle_fullscreen_area`. -/
def is_toggle_event (e : Event) : Bool :=
  match e with
  | Event.key_release keyval _ _ => decide (keyval = GDK_KEY_F11)
  | _ => false

/-! ## The two search loops, step by step -/

/-- The loop `while (i > 0 && !(presets[i] < widthheight)) i--;` run for at
most `fuel` tests of its condition: `some i` when the loop has ended with
index `i`, `none` when it is still running. -/
def loop_down (presets : List Double) (widthheight : Double) : Nat → Nat → Option Nat
  | 0, _ => none
  | fuel + 1, i =>
    if i > 0 && !(decide (presets.getD i 0 < widthheight)) then
      loop_down presets widthheight fuel (i - 1)
    else some i

/-- The loop `while (i < PRESET_N - 1 && !(presets[i] > widthheight)) i++;`
run for at most `fuel` tests of its condition. -/
def loop_up (presets : List Double) (widthheight : Double) : Nat → Nat → Option Nat
  | 0, _ => none
  | fuel + 1, i =>
    if i < presets.length - 1 && !(decide (presets.getD i 0 > widthheight)) then
      loop_up presets widthheight fuel (i + 1)
    else some i

/-! ## The text `write_previous` writes -/

/-- The character of a decimal digit. -/
def digit_char (d : Nat) : Char := Char.ofNat (48 + d % 10)

/-- The line feed character. -/
def newline : Char := Char.ofNat 10

/-- The decimal digits of a natural number, most significant first. -/
def decimal_digits (n : Nat) : List Char :=
  if n = 0 then ['0'] else (Nat.digits 10 n).reverse.map digit_char

/-- What `printf` writes for the conversion `%f` of a finite double: the
sign, the integral digits, a point and six decimals, the value rounded to
the nearest millionth, ties to even. -/
def printf_f (d : Double) : List Char :=
  let m := (roundHalfEven (|d| * 1000000)).toNat
  (if d < 0 then ['-'] else []) ++ decimal_digits (m / 1000000) ++ ['.'] ++
    [digit_char (m / 100000), digit_char (m / 10000), digit_char (m / 1000),
     digit_char (m / 100), digit_char (m / 10), digit_char m]

/-- `snprintf (buf, size, "%f", d)`: at most `size - 1` characters are
written before the terminating zero. -/
def snprintf_f (size : Nat) (d : Double) : List Char := (printf_f d).take (size - 1)

/-- The text `contents` that `write_previous` builds (main.c 725-732) and
hands to `g_file_set_contents`. -/
def write_previous_contents (presets : List Double) (previous : GdkRectangle) : List Char :=
  match write_previous_pre presets previous with
  | [] => []
  | p0 :: rest =>
    rest.foldl (fun contents p => contents ++ [newline] ++ snprintf_f 11 p) (snprintf_f 11 p0)

/-! ## Rounding and conversions -/

theorem roundHalfEven_intCast (n : ℤ) : roundHalfEven (n : ℚ) = n := by
  simp [roundHalfEven]

theorem abs_roundHalfEven_sub_le (q : ℚ) : |(roundHalfEven q : ℚ) - q| ≤ 1 / 2 := by
  have h1 : (⌊q⌋ : ℚ) ≤ q := Int.floor_le q
  have h2 : q < ⌊q⌋ + 1 := Int.lt_floor_add_one q
  unfold roundHalfEven
  split_ifs with ha hb hc <;> push_cast <;> rw [abs_le] <;> constructor <;> linarith

theorem roundHalfEven_eq_of_abs_sub_lt (q : ℚ) (n : ℤ) (h : |q - n| < 1 / 2) :
    roundHalfEven q = n := by
  rw [abs_lt] at h
  obtain ⟨h1, h2⟩ := h
  have hf : ⌊q⌋ = n ∨ ⌊q⌋ = n - 1 := by
    have a1 : n - 1 ≤ ⌊q⌋ := by
      rw [Int.le_floor]; push_cast; linarith
    have a2 : ⌊q⌋ < n + 1 := by
      rw [Int.floor_lt]; push_cast; linarith
    omega
  unfold roundHalfEven
  rcases hf with hf | hf
  · have : q - (n : ℚ) < 1 / 2 := h2
    simp only [hf]
    rw [if_pos this]
  · have e : ((n - 1 : ℤ) : ℚ) = (n : ℚ) - 1 := by push_cast; ring
    simp only [hf, e]
    have c1 : ¬ (q - ((n : ℚ) - 1) < 1 / 2) := by intro hh; linarith
    have c2 : 1 / 2 < q - ((n : ℚ) - 1) := by linarith
    rw [if_neg c1, if_pos c2]; ring

theorem ulp_pos (q : ℚ) : 0 < ulp q := by
  unfold ulp; positivity

theorem ulp_le (q : ℚ) (hq : q ≠ 0) : ulp q ≤ |q| / 2 ^ 52 := by
  have hpos : 0 < |q| := abs_pos.mpr hq
  have h := Int.zpow_log_le_self (b := 2) (r := |q|) (by norm_num) hpos
  unfold ulp
  rw [zpow_sub₀ (by norm_num : (2 : ℚ) ≠ 0)]
  have : ((2 : ℚ) ^ (52 : ℤ)) = 2 ^ 52 := by norm_cast
  rw [this]
  push_cast at h
  gcongr

theorem fl_err (q : ℚ) : |fl q - q| ≤ |q| / 2 ^ 53 := by
  unfold fl
  split_ifs with h0
  · simp [h0]
  · have hu := ulp_pos q
    have hr := abs_roundHalfEven_sub_le (q / ulp q)
    have e : (roundHalfEven (q / ulp q) : ℚ) * ulp q - q
        = ((roundHalfEven (q / ulp q) : ℚ) - q / ulp q) * ulp q := by
      field_simp
    rw [e, abs_mul, abs_of_pos hu]
    have hb := ulp_le q h0
    calc |(roundHalfEven (q / ulp q) : ℚ) - q / ulp q| * ulp q
        ≤ 1 / 2 * ulp q := by gcongr
      _ ≤ 1 / 2 * (|q| / 2 ^ 52) := by gcongr
      _ = |q| / 2 ^ 53 := by ring

theorem fl_zero : fl 0 = 0 := by simp [fl]

theorem fl_intCast (n : ℤ) (h : |n| < 2 ^ 53) : fl (n : ℚ) = n := by
  by_cases h0 : n = 0
  · subst h0; simp [fl]
  · have hq : (n : ℚ) ≠ 0 := by exact_mod_cast h0
    have hpos : 0 < |(n : ℚ)| := abs_pos.mpr hq
    have hlt : |(n : ℚ)| < (2 : ℚ) ^ (53 : ℤ) := by
      have : ((|n| : ℤ) : ℚ) < ((2 ^ 53 : ℤ) : ℚ) := by exact_mod_cast h
      rw [Int.cast_abs] at this
      rw [show ((2 : ℚ) ^ (53 : ℤ)) = ((2 ^ 53 : ℤ) : ℚ) by norm_cast]
      exact this
    have he : Int.log 2 |(n : ℚ)| < 53 := by
      have := (Int.lt_zpow_iff_log_lt (b := 2) (by norm_num) hpos (x := 53)).mp
        (by exact_mod_cast hlt)
      exact this
    obtain ⟨k, hk⟩ : ∃ k : ℕ, (k : ℤ) = 52 - Int.log 2 |(n : ℚ)| :=
      ⟨(52 - Int.log 2 |(n : ℚ)|).toNat, Int.toNat_of_nonneg (by omega)⟩
    have hu : ulp (n : ℚ) = ((2 : ℚ) ^ k)⁻¹ := by
      unfold ulp
      rw [show Int.log 2 |(n : ℚ)| - 52 = -(k : ℤ) by omega, zpow_neg, zpow_natCast]
    have hdiv : (n : ℚ) / ulp (n : ℚ) = ((n * 2 ^ k : ℤ) : ℚ) := by
      rw [hu]; push_cast; field_simp
    unfold fl
    rw [if_neg hq, hdiv, roundHalfEven_intCast, hu]
    push_cast
    field_simp

theorem ofInt_eq (n : ℤ) (h : |n| < 2 ^ 53) : ofInt n = (n : ℚ) := fl_intCast n h

theorem truncZ_intCast (n : ℤ) : truncZ (n : ℚ) = n := by
  unfold truncZ; split_ifs <;> simp

theorem truncZ_eq_of_nonneg (q : ℚ) (n : ℤ) (h0 : 0 ≤ n) (h1 : (n : ℚ) ≤ q)
    (h2 : q < n + 1) : truncZ q = n := by
  have hq : (0 : ℚ) ≤ q := le_trans (by exact_mod_cast h0) h1
  unfold truncZ
  rw [if_pos hq, Int.floor_eq_iff]
  exact ⟨h1, h2⟩

theorem truncZ_eq_of_neg (q : ℚ) (n : ℤ) (h0 : n ≤ 0) (h1 : (n : ℚ) - 1 < q)
    (h2 : q < n) : truncZ q = n := by
  have hq : ¬ (0 : ℚ) ≤ q := by
    have : (n : ℚ) ≤ 0 := by exact_mod_cast h0
    intro hh; linarith
  unfold truncZ
  rw [if_neg hq, Int.ceil_eq_iff]
  exact ⟨h1, le_of_lt h2⟩

theorem toInt_rint_intCast (n : ℤ) : toInt (rint (n : ℚ)) = n := by
  simp [toInt, rint, roundHalfEven_intCast, truncZ_intCast]

theorem toInt_rint_eq_of_abs_sub_lt (q : ℚ) (n : ℤ) (h : |q - n| < 1 / 2) :
    toInt (rint q) = n := by
  simp [toInt, rint, roundHalfEven_eq_of_abs_sub_lt q n h, truncZ_intCast]

theorem metric_zero (a : ℤ) (ha : |a| ≤ 2 ^ 31) : metric a 0 = (a : ℚ) := by
  have h1 : |a| < 2 ^ 53 := lt_of_le_of_lt ha (by norm_num)
  unfold metric dadd ddiv
  rw [ofInt_eq a h1, ofInt_eq 0 (by norm_num)]
  simp only [Int.cast_zero, zero_div, fl_zero, add_zero]
  exact fl_intCast a h1

theorem metric_err (a b : ℤ) (ha : |a| ≤ 2 ^ 31) (hb0 : 0 ≤ b) (hb1 : b < 100000) :
    |metric a b - ((a : ℚ) + (b : ℚ) / 100000)| ≤ 1 / 1000000 := by
  have h1 : |a| < 2 ^ 53 := lt_of_le_of_lt ha (by norm_num)
  have h2 : |b| < 2 ^ 53 := by rw [abs_of_nonneg hb0]; omega
  have hbq0 : (0 : ℚ) ≤ (b : ℚ) := by exact_mod_cast hb0
  have hbq1 : (b : ℚ) < 100000 := by exact_mod_cast hb1
  have haq : |(a : ℚ)| ≤ 2 ^ 31 := by
    have : ((|a| : ℤ) : ℚ) ≤ ((2 ^ 31 : ℤ) : ℚ) := by exact_mod_cast ha
    rw [Int.cast_abs] at this
    simpa using this
  obtain ⟨ha1, ha2⟩ := abs_le.mp haq
  unfold metric dadd ddiv
  rw [ofInt_eq a h1, ofInt_eq b h2]
  have et := fl_err ((b : ℚ) / 100000)
  have hbabs : |(b : ℚ) / 100000| = (b : ℚ) / 100000 := abs_of_nonneg (by positivity)
  rw [hbabs] at et
  obtain ⟨et1, et2⟩ := abs_le.mp et
  have es := fl_err ((a : ℚ) + fl ((b : ℚ) / 100000))
  have hsum : |(a : ℚ) + fl ((b : ℚ) / 100000)| ≤ 2 ^ 31 + 2 := by
    rw [abs_le]; constructor <;> linarith
  have es' : |fl ((a : ℚ) + fl ((b : ℚ) / 100000)) - ((a : ℚ) + fl ((b : ℚ) / 100000))|
      ≤ (2 ^ 31 + 2) / 2 ^ 53 := le_trans es (by gcongr)
  obtain ⟨es1, es2⟩ := abs_le.mp es'
  rw [abs_le]
  constructor <;> norm_num at * <;> linarith

/-- The bound behind `rint (100000 * frac)`: when the fractional part is within
`1e-6` of `c / 100000` for an integer `c` below `200000` in size, the rounded
product rounds to `c`. -/
theorem toInt_rint_dmul (f : ℚ) (c : ℤ) (hc : |(c : ℚ)| ≤ 200000)
    (hf : |f - (c : ℚ) / 100000| ≤ 1 / 1000000) :
    toInt (rint (dmul 100000 f)) = c := by
  apply toInt_rint_eq_of_abs_sub_lt
  obtain ⟨c1, c2⟩ := abs_le.mp hc
  obtain ⟨f1, f2⟩ := abs_le.mp hf
  have hp : |100000 * f| ≤ 200001 := by
    rw [abs_le]; constructor <;> linarith
  have e := fl_err (100000 * f)
  have e' : |fl (100000 * f) - 100000 * f| ≤ 200001 / 2 ^ 53 := le_trans e (by gcongr)
  obtain ⟨e1, e2⟩ := abs_le.mp e'
  unfold dmul
  rw [abs_lt]
  constructor <;> norm_num at * <;> linarith

theorem decode_metric_of_nonneg (a b : ℤ) (ha0 : 0 ≤ a) (ha : a ≤ 2 ^ 31)
    (hb0 : 0 ≤ b) (hb1 : b < 100000) :
    toInt (rint (modf (metric a b)).2) = a ∧
      toInt (rint (dmul 100000 (modf (metric a b)).1)) = b := by
  have habs : |a| ≤ 2 ^ 31 := by rw [abs_of_nonneg ha0]; exact ha
  have herr := metric_err a b habs hb0 hb1
  obtain ⟨e1, e2⟩ := abs_le.mp herr
  have hbq0 : (0 : ℚ) ≤ (b : ℚ) := by exact_mod_cast hb0
  have hbq1 : (b : ℚ) ≤ 99999 := by
    have : b ≤ 99999 := by omega
    exact_mod_cast this
  have htr : truncZ (metric a b) = a := by
    rcases eq_or_lt_of_le hb0 with hb | hb
    · rw [← hb, metric_zero a habs, truncZ_intCast]
    · have hb1q : (1 : ℚ) ≤ (b : ℚ) := by
        have : (1 : ℤ) ≤ b := by omega
        exact_mod_cast this
      apply truncZ_eq_of_nonneg _ _ ha0 <;> linarith
  unfold modf
  simp only [htr]
  refine ⟨toInt_rint_intCast a, ?_⟩
  apply toInt_rint_dmul
  · rw [abs_le]; constructor <;> linarith
  · rw [abs_le]; constructor <;> linarith

theorem decode_metric_of_neg (a b : ℤ) (ha0 : a < 0) (ha : -2 ^ 31 ≤ a)
    (hb0 : 1 ≤ b) (hb1 : b < 100000) :
    toInt (rint (modf (metric a b)).2) = a + 1 ∧
      toInt (rint (dmul 100000 (modf (metric a b)).1)) = b - 100000 := by
  have habs : |a| ≤ 2 ^ 31 := by rw [abs_of_neg ha0]; omega
  have herr := metric_err a b habs (by omega) hb1
  obtain ⟨e1, e2⟩ := abs_le.mp herr
  have hbq0 : (1 : ℚ) ≤ (b : ℚ) := by exact_mod_cast hb0
  have hbq1 : (b : ℚ) ≤ 99999 := by
    have : b ≤ 99999 := by omega
    exact_mod_cast this
  have htr : truncZ (metric a b) = a + 1 := by
    apply truncZ_eq_of_neg _ _ (by omega) <;> push_cast <;> linarith
  unfold modf
  simp only [htr]
  refine ⟨toInt_rint_intCast (a + 1), ?_⟩
  apply toInt_rint_dmul
  · push_cast; rw [abs_le]; constructor <;> linarith
  · push_cast; rw [abs_le]; constructor <;> linarith

/-! ## The encoding of a size in one double -/

theorem floor_metric (a b : ℤ) (ha : |a| ≤ 2 ^ 31) (hb0 : 0 ≤ b) (hb1 : b < 100000) :
    ⌊metric a b⌋ = a := by
  have herr := metric_err a b ha hb0 hb1
  obtain ⟨e1, e2⟩ := abs_le.mp herr
  have hbq1 : (b : ℚ) ≤ 99999 := by
    have : b ≤ 99999 := by omega
    exact_mod_cast this
  rcases eq_or_lt_of_le hb0 with hb | hb
  · rw [← hb, metric_zero a ha, Int.floor_intCast]
  · have hb1q : (1 : ℚ) ≤ (b : ℚ) := by
      have : (1 : ℤ) ≤ b := by omega
      exact_mod_cast this
    rw [Int.floor_eq_iff]
    constructor <;> linarith

theorem get_w_metric (a b : ℤ) (ha : |a| ≤ 2 ^ 31) (hb0 : 0 ≤ b) (hb1 : b < 100000) :
    toInt (get_w (metric a b)) = a := by
  unfold get_w toInt
  rw [floor_metric a b ha hb0 hb1, truncZ_intCast]

theorem get_h_metric (a b : ℤ) (ha : |a| ≤ 2 ^ 31) (hb0 : 0 ≤ b) (hb1 : b < 100000) :
    toInt (get_h (metric a b)) = b := by
  have herr := metric_err a b ha hb0 hb1
  obtain ⟨e1, e2⟩ := abs_le.mp herr
  have hbq0 : (0 : ℚ) ≤ (b : ℚ) := by exact_mod_cast hb0
  have hbq1 : (b : ℚ) ≤ 99999 := by
    have : b ≤ 99999 := by omega
    exact_mod_cast this
  unfold get_h
  rw [floor_metric a b ha hb0 hb1]
  apply toInt_rint_dmul
  · rw [abs_le]; constructor <;> linarith
  · rw [abs_le]; constructor <;> linarith

theorem metric_lt_metric (a1 b1 a2 b2 : ℤ) (ha1 : |a1| ≤ 2 ^ 31) (ha2 : |a2| ≤ 2 ^ 31)
    (hb1 : 0 ≤ b1 ∧ b1 < 100000) (hb2 : 0 ≤ b2 ∧ b2 < 100000)
    (h : a1 < a2 ∨ (a1 = a2 ∧ b1 < b2)) : metric a1 b1 < metric a2 b2 := by
  obtain ⟨e1, e2⟩ := abs_le.mp (metric_err a1 b1 ha1 hb1.1 hb1.2)
  obtain ⟨f1, f2⟩ := abs_le.mp (metric_err a2 b2 ha2 hb2.1 hb2.2)
  have p1 : (0 : ℚ) ≤ (b1 : ℚ) := by exact_mod_cast hb1.1
  have p2 : (0 : ℚ) ≤ (b2 : ℚ) := by exact_mod_cast hb2.1
  have q1 : (b1 : ℚ) ≤ 99999 := by
    have : b1 ≤ 99999 := by omega
    exact_mod_cast this
  rcases h with h | ⟨h, h'⟩
  · have : (a1 : ℚ) + 1 ≤ (a2 : ℚ) := by
      have : a1 + 1 ≤ a2 := by omega
      exact_mod_cast this
    linarith
  · have : (b1 : ℚ) + 1 ≤ (b2 : ℚ) := by
      have : b1 + 1 ≤ b2 := by omega
      exact_mod_cast this
    subst h
    linarith

/-! ## The two search loops -/

theorem search_down_le (p : List Double) (wh : Double) (i : Nat) :
    search_down p wh i ≤ i := by
  induction i with
  | zero => simp [search_down]
  | succ i ih =>
    unfold search_down
    split_ifs
    · omega
    · exact le_refl _

theorem search_down_skipped (p : List Double) (wh : Double) (i j : Nat)
    (h1 : search_down p wh i < j) (h2 : j ≤ i) : ¬ p.getD j 0 < wh := by
  induction i with
  | zero => omega
  | succ i ih =>
    unfold search_down at h1
    split_ifs at h1 with hc
    · rcases Nat.lt_or_ge i j with hj | hj
      · have : j = i + 1 := by omega
        subst this
        simpa using hc
      · exact ih h1 hj
    · omega

theorem search_down_found (p : List Double) (wh : Double) (i : Nat)
    (h : 0 < search_down p wh i) : p.getD (search_down p wh i) 0 < wh := by
  induction i with
  | zero => simp [search_down] at h
  | succ i ih =>
    unfold search_down at h ⊢
    split_ifs at h ⊢ with hc
    · exact ih h
    · simpa using hc

theorem search_up_bounds (p : List Double) (wh : Double) (n i : Nat) :
    i ≤ search_up p wh n i ∧ search_up p wh n i ≤ i + n := by
  induction n generalizing i with
  | zero => simp [search_up]
  | succ n ih =>
    unfold search_up
    split_ifs
    · have := ih (i + 1)
      omega
    · omega

theorem search_up_skipped (p : List Double) (wh : Double) (n i j : Nat)
    (h1 : i ≤ j) (h2 : j < search_up p wh n i) : ¬ p.getD j 0 > wh := by
  induction n generalizing i with
  | zero => simp [search_up] at h2; omega
  | succ n ih =>
    unfold search_up at h2
    split_ifs at h2 with hc
    · rcases Nat.lt_or_ge i j with hj | hj
      · exact ih (i + 1) hj h2
      · have : j = i := by omega
        subst this
        simpa using hc
    · omega

theorem search_up_found (p : List Double) (wh : Double) (n i : Nat)
    (h : search_up p wh n i < i + n) : p.getD (search_up p wh n i) 0 > wh := by
  induction n generalizing i with
  | zero => simp [search_up] at h
  | succ n ih =>
    unfold search_up at h ⊢
    split_ifs at h ⊢ with hc
    · exact ih (i + 1) (by omega)
    · simpa using hc

theorem getD_lt_getD_of_pairwise (p : List Double) (hs : p.Pairwise (fun a b => a < b))
    (i j : Nat) (hij : i < j) (hj : j < p.length) : p.getD i 0 < p.getD j 0 := by
  have hi : i < p.length := by omega
  rw [List.getD_eq_getElem p 0 hi, List.getD_eq_getElem p 0 hj]
  exact List.pairwise_iff_getElem.mp hs i j hi hj hij

/-- The index the downward search ends with is the index of the largest
entry below `wh`, when there is one. -/
theorem search_down_eq (p : List Double) (hs : p.Pairwise (fun a b => a < b)) (wh : Double)
    (k : Nat) (hk : k < p.length) (hlt : p.getD k 0 < wh)
    (hmax : ∀ j, j < p.length → p.getD j 0 < wh → p.getD j 0 ≤ p.getD k 0) :
    search_down p wh (p.length - 1) = k := by
  have h1 := search_down_le p wh (p.length - 1)
  have h2 : k ≤ search_down p wh (p.length - 1) := by
    by_contra hc
    exact search_down_skipped p wh (p.length - 1) k (by omega) (by omega) hlt
  rcases Nat.eq_or_lt_of_le h2 with h | h
  · exact h.symm
  · exfalso
    have hf := search_down_found p wh (p.length - 1) (by omega)
    have hle := hmax _ (by omega) hf
    have hlt2 := getD_lt_getD_of_pairwise p hs k _ h (by omega)
    exact absurd hle (not_le.mpr hlt2)

/-- The index the upward search ends with is the index of the smallest entry
above `wh`, when there is one. -/
theorem search_up_eq (p : List Double) (hs : p.Pairwise (fun a b => a < b)) (wh : Double)
    (k : Nat) (hk : k < p.length) (hgt : wh < p.getD k 0)
    (hmin : ∀ j, j < p.length → wh < p.getD j 0 → p.getD k 0 ≤ p.getD j 0) :
    search_up p wh (p.length - 1) 0 = k := by
  have h1 := search_up_bounds p wh (p.length - 1) 0
  have h2 : search_up p wh (p.length - 1) 0 ≤ k := by
    by_contra hc
    exact search_up_skipped p wh (p.length - 1) 0 k (by omega) (by omega) hgt
  rcases Nat.eq_or_lt_of_le h2 with h | h
  · exact h
  · exfalso
    have hf := search_up_found p wh (p.length - 1) 0 (by omega)
    have hle := hmin _ (by omega) hf
    have hlt2 := getD_lt_getD_of_pairwise p hs _ k h hk
    exact absurd hle (not_le.mpr hlt2)

/-- With no entry below `wh` the downward search ends at index 0. -/
theorem search_down_eq_zero (p : List Double) (wh : Double) (i : Nat)
    (h : ∀ j, j ≤ i → ¬ p.getD j 0 < wh) : search_down p wh i = 0 := by
  by_contra hc
  exact h _ (search_down_le p wh i) (search_down_found p wh i (by omega))

/-- With no entry above `wh` the upward search ends at the last index. -/
theorem search_up_eq_last (p : List Double) (wh : Double) (n : Nat)
    (h : ∀ j, j ≤ n → ¬ p.getD j 0 > wh) : search_up p wh n 0 = n := by
  have hb := search_up_bounds p wh n 0
  by_contra hc
  exact h _ (by omega) (search_up_found p wh n 0 (by omega))

/-! ## The clamp step of `draw_rect` -/

theorem draw_rect_clamp_fits (mw mh : Int) (r : GdkRectangle) :
    (draw_rect_clamp mw mh r).x + (draw_rect_clamp mw mh r).width ≤ mw ∧
      (draw_rect_clamp mw mh r).y + (draw_rect_clamp mw mh r).height ≤ mh := by
  obtain ⟨x, y, w, h⟩ := r
  simp only [draw_rect_clamp]
  split_ifs <;> simp only at * <;> omega

theorem draw_rect_clamp_of_fits (mw mh : Int) (r : GdkRectangle)
    (hx : r.x + r.width ≤ mw) (hy : r.y + r.height ≤ mh) :
    draw_rect_clamp mw mh r = r := by
  obtain ⟨x, y, w, h⟩ := r
  simp only at hx hy
  simp only [draw_rect_clamp]
  split_ifs <;> simp only at * <;> first | rfl | omega

theorem draw_rect_init_surface_rect (s : Session) :
    (draw_rect_init s).surface_rect = s.surface_rect := by
  unfold draw_rect_init
  split_ifs <;> rfl

/-- Where the fields are `int` values and neither `x + width` nor
`y + height` leaves the range of `int`, the 32-bit clamp step is the clamp
step over the integers. -/
theorem draw_rect_clamp_int32_eq (mw mh : Int) (r : GdkRectangle) (hr : rect_is_int r)
    (hmw : is_int mw) (hmh : is_int mh) (hx : is_int (r.x + r.width))
    (hy : is_int (r.y + r.height)) :
    draw_rect_clamp_int32 mw mh r = draw_rect_clamp mw mh r := by
  obtain ⟨x, y, w, h⟩ := r
  obtain ⟨⟨x1, x2⟩, ⟨y1, y2⟩, ⟨w1, w2⟩, ⟨h1, h2⟩⟩ := hr
  obtain ⟨m1, m2⟩ := hmw
  obtain ⟨n1, n2⟩ := hmh
  obtain ⟨sx1, sx2⟩ := hx
  obtain ⟨sy1, sy2⟩ := hy
  simp only at x1 x2 y1 y2 w1 w2 h1 h2 sx1 sx2 sy1 sy2
  have ex : wrap_int (x + w) = x + w := by unfold wrap_int; omega
  have ey : wrap_int (y + h) = y + h := by unfold wrap_int; omega
  simp only [draw_rect_clamp_int32, draw_rect_clamp, ex]
  split_ifs with c1 c2 c3 c4 c5 c6 c7 c8 c9 <;> simp only [ey] at * <;>
    first
    | rfl
    | omega
    | (simp only [GdkRectangle.mk.injEq, true_and, and_true]; unfold wrap_int; omega)

/-- C2, as stated, fails: for the rectangle (2147483647, 0, 1, 10) on a
1920 x 1080 monitor the sum `x + width` of the guard overflows `int`, the
guard does not fire and the rectangle stays, with `x + width` far beyond
the monitor width. -/
theorem clamp_guard_overflow_keeps_rect :
    draw_rect_clamp_int32 1920 1080 ⟨2147483647, 0, 1, 10⟩ = ⟨2147483647, 0, 1, 10⟩ ∧
    ¬ ((draw_rect_clamp_int32 1920 1080 ⟨2147483647, 0, 1, 10⟩).x
        + (draw_rect_clamp_int32 1920 1080 ⟨2147483647, 0, 1, 10⟩).width ≤ 1920) := by
  decide

/-- C2, amended: for every rectangle and monitor size of `int` values such
that `x + width` and `y + height` do not exceed `INT_MAX`, after the clamp
step of `draw_rect` the rectangle satisfies `x + width ≤ monWidth` and
`y + height ≤ monHeight`. -/
theorem clamp_within_monitor_of_no_overflow (mon_width mon_height : Int) (r : GdkRectangle)
    (hr : rect_is_int r) (hmw : is_int mon_width) (hmh : is_int mon_height)
    (hx : r.x + r.width ≤ 2147483647) (hy : r.y + r.height ≤ 2147483647) :
    (draw_rect_clamp_int32 mon_width mon_height r).x
        + (draw_rect_clamp_int32 mon_width mon_height r).width ≤ mon_width ∧
    (draw_rect_clamp_int32 mon_width mon_height r).y
        + (draw_rect_clamp_int32 mon_width mon_height r).height ≤ mon_height := by
  obtain ⟨x, y, w, h⟩ := r
  obtain ⟨⟨x1, x2⟩, ⟨y1, y2⟩, ⟨w1, w2⟩, ⟨h1, h2⟩⟩ := hr
  obtain ⟨m1, m2⟩ := hmw
  obtain ⟨n1, n2⟩ := hmh
  simp only at x1 x2 y1 y2 w1 w2 h1 h2 hx hy
  simp only [draw_rect_clamp_int32, wrap_int]
  split_ifs <;> simp only at * <;> omega

/-- Witness of `clamp_within_monitor_of_no_overflow`: a 100 x 100 rectangle
at (1900, 1000) on a 1920 x 1080 monitor. -/
theorem clamp_within_monitor_of_no_overflow_witness :
    (draw_rect_clamp_int32 1920 1080 ⟨1900, 1000, 100, 100⟩).x
        + (draw_rect_clamp_int32 1920 1080 ⟨1900, 1000, 100, 100⟩).width ≤ 1920 ∧
    (draw_rect_clamp_int32 1920 1080 ⟨1900, 1000, 100, 100⟩).y
        + (draw_rect_clamp_int32 1920 1080 ⟨1900, 1000, 100, 100⟩).height ≤ 1080 :=
  clamp_within_monitor_of_no_overflow 1920 1080 ⟨1900, 1000, 100, 100⟩
    (by decide) (by decide) (by decide) (by decide) (by decide)

/-- C4: the clamp step of `draw_rect` is idempotent: clamping the clamped
rectangle against the same monitor size changes none of its fields. -/
theorem clamp_idempotent (mon_width mon_height : Int) (r : GdkRectangle) :
    draw_rect_clamp mon_width mon_height (draw_rect_clamp mon_width mon_height r)
      = draw_rect_clamp mon_width mon_height r := by
  have h := draw_rect_clamp_fits mon_width mon_height r
  exact draw_rect_clamp_of_fits _ _ _ h.1 h.2

/-! ## `toggle_fullscreen_area` -/

theorem draw_rect_init_flag (s : Session) :
    (draw_rect_init s).surface_became_fullscreen = false := by
  unfold draw_rect_init
  split_ifs with h <;> first | rfl | simpa using h

theorem draw_rect_init_toggle_state (s : Session) :
    (draw_rect_init s).area_is_fullscreen = s.area_is_fullscreen ∧
    (draw_rect_init s).prev_x = s.prev_x ∧ (draw_rect_init s).prev_y = s.prev_y ∧
    (draw_rect_init s).prev_w = s.prev_w ∧ (draw_rect_init s).prev_h = s.prev_h := by
  unfold draw_rect_init
  split_ifs <;> exact ⟨rfl, rfl, rfl, rfl, rfl⟩

theorem draw_rect_init_of_flag_false (s : Session) (h : s.surface_became_fullscreen = false) :
    draw_rect_init s = s := by
  unfold draw_rect_init
  rw [if_neg (by simp [h])]

/-- After the first of two toggles, starting from the non-fullscreen state:
the flag is set, the saved rectangle is the old one, the one-time
initialisation is over and the surface geometry is the same. -/
theorem toggle_fullscreen_area_enter (aw ah : Int) (s : Session)
    (h0 : s.area_is_fullscreen = false) :
    (toggle_fullscreen_area aw ah s).1.area_is_fullscreen = true ∧
    (toggle_fullscreen_area aw ah s).1.prev_x = s.area_rect.x ∧
    (toggle_fullscreen_area aw ah s).1.prev_y = s.area_rect.y ∧
    (toggle_fullscreen_area aw ah s).1.prev_w = s.area_rect.width ∧
    (toggle_fullscreen_area aw ah s).1.prev_h = s.area_rect.height ∧
    (toggle_fullscreen_area aw ah s).1.surface_became_fullscreen = false ∧
    (toggle_fullscreen_area aw ah s).1.surface_rect = s.surface_rect := by
  unfold toggle_fullscreen_area
  rw [if_pos (by simp [h0])]
  simp only [draw_rect]
  refine ⟨?_, ?_, ?_, ?_, ?_, ?_, ?_⟩
  · rw [(draw_rect_init_toggle_state _).1]
  · rw [(draw_rect_init_toggle_state _).2.1]
  · rw [(draw_rect_init_toggle_state _).2.2.1]
  · rw [(draw_rect_init_toggle_state _).2.2.2.1]
  · rw [(draw_rect_init_toggle_state _).2.2.2.2]
  · exact draw_rect_init_flag _
  · rw [draw_rect_init_surface_rect]

/-- The rectangle the second of two toggles leaves: the saved one, clamped. -/
theorem toggle_fullscreen_area_leave (aw ah : Int) (s : Session)
    (h1 : s.area_is_fullscreen = true) (hf : s.surface_became_fullscreen = false) :
    (toggle_fullscreen_area aw ah s).1.area_rect
      = draw_rect_clamp s.surface_rect.width s.surface_rect.height
          ⟨s.prev_x, s.prev_y, s.prev_w, s.prev_h⟩ := by
  unfold toggle_fullscreen_area
  rw [if_neg (by simp [h1])]
  simp only [draw_rect]
  rw [draw_rect_init_of_flag_false]
  exact hf

theorem toggle_fullscreen_area_twice (aw ah aw2 ah2 : Int) (s : Session)
    (h0 : s.area_is_fullscreen = false) :
    (toggle_fullscreen_area aw2 ah2 (toggle_fullscreen_area aw ah s).1).1.area_rect
      = draw_rect_clamp s.surface_rect.width s.surface_rect.height s.area_rect := by
  obtain ⟨e1, e2, e3, e4, e5, e6, e7⟩ := toggle_fullscreen_area_enter aw ah s h0
  rw [toggle_fullscreen_area_leave aw2 ah2 _ e1 e6, e2, e3, e4, e5, e7]

/-- C5, as stated, fails: a 100 x 100 rectangle at (1900, 0) on a 1920 x 1080
surface comes back from two toggles at (1820, 0), because the `draw_rect`
call of the second toggle clamps the restored rectangle. -/
theorem toggle_twice_moves_unclamped_rect :
    (toggle_fullscreen_area 1920 1080
      (toggle_fullscreen_area 1920 1080
        { setup_widget_data_pointers ⟨0, 0, 0, 0⟩ ⟨0, 0, 0, 0⟩ ⟨0, 0, 1920, 1080⟩ [] (0, 0) "p"
          with area_rect := ⟨1900, 0, 100, 100⟩ }).1).1.area_rect
      = ⟨1820, 0, 100, 100⟩ ∧
    (⟨1820, 0, 100, 100⟩ : GdkRectangle) ≠ ⟨1900, 0, 100, 100⟩ := by
  refine ⟨?_, by decide⟩
  rw [toggle_fullscreen_area_twice _ _ _ _ _ rfl]
  decide

/-- C5, amended: starting from the non-fullscreen state with a rectangle that
fits the surface (`x + width ≤ monWidth`, `y + height ≤ monHeight`, as every
rectangle `draw_rect` has left does), two consecutive calls of
`toggle_fullscreen_area` leave `x`, `y`, `width` and `height` as they were
before the first call; and when no initialisation is pending and the widget
allocation is the surface size, the first call sets the rectangle to
`(0, 0, monWidth, monHeight)`. -/
theorem toggle_twice_restores_rect (aw ah aw2 ah2 : Int) (s : Session)
    (h0 : s.area_is_fullscreen = false)
    (hx : s.area_rect.x + s.area_rect.width ≤ s.surface_rect.width)
    (hy : s.area_rect.y + s.area_rect.height ≤ s.surface_rect.height) :
    (toggle_fullscreen_area aw2 ah2 (toggle_fullscreen_area aw ah s).1).1.area_rect
      = s.area_rect ∧
    (s.surface_became_fullscreen = false → aw = s.surface_rect.width →
      ah = s.surface_rect.height →
      (toggle_fullscreen_area aw ah s).1.area_rect
        = ⟨0, 0, s.surface_rect.width, s.surface_rect.height⟩) := by
  constructor
  · rw [toggle_fullscreen_area_twice aw ah aw2 ah2 s h0]
    exact draw_rect_clamp_of_fits _ _ _ hx hy
  · intro hf hw hh
    unfold toggle_fullscreen_area
    rw [if_pos (by simp [h0])]
    simp only [draw_rect]
    rw [draw_rect_init_of_flag_false]
    · subst hw hh
      exact draw_rect_clamp_of_fits _ _ _ (by simp) (by simp)
    · exact hf

/-- Witness of `toggle_twice_restores_rect`: the start-up rectangle
(130, 130, 260, 260) on a 1920 x 1080 surface. -/
theorem toggle_twice_restores_rect_witness :
    (toggle_fullscreen_area 1920 1080
      (toggle_fullscreen_area 1920 1080
        (setup_widget_data_pointers ⟨0, 0, 0, 0⟩ ⟨0, 0, 0, 0⟩ ⟨0, 0, 1920, 1080⟩
          [] (0, 0) "p")).1).1.area_rect
      = ⟨130, 130, 260, 260⟩ :=
  (toggle_twice_restores_rect 1920 1080 1920 1080
    (setup_widget_data_pointers ⟨0, 0, 0, 0⟩ ⟨0, 0, 0, 0⟩ ⟨0, 0, 1920, 1080⟩ [] (0, 0) "p")
    rfl (by decide) (by decide)).1

/-! ## `resize_rect` -/

/-- C8: `resize_rect` keeps `x` when `right - x ≥ 16` and sets it to
`right - 16` otherwise, likewise `y` from `lower`, and sets
`width = right - x`, `height = lower - y` from the new origin; hence
`width ≥ 16`, `height ≥ 16`, `x + width = right` and `y + height = lower`;
a rectangle at (95, 95) resized to the corner (100, 100) becomes
(84, 84, 16, 16). -/
theorem resize_rect_spec (right lower : Int) (r : GdkRectangle) :
    (resize_rect right lower r).x = (if right - r.x ≥ 16 then r.x else right - 16) ∧
    (resize_rect right lower r).y = (if lower - r.y ≥ 16 then r.y else lower - 16) ∧
    (resize_rect right lower r).width = right - (resize_rect right lower r).x ∧
    (resize_rect right lower r).height = lower - (resize_rect right lower r).y ∧
    16 ≤ (resize_rect right lower r).width ∧
    16 ≤ (resize_rect right lower r).height ∧
    (resize_rect right lower r).x + (resize_rect right lower r).width = right ∧
    (resize_rect right lower r).y + (resize_rect right lower r).height = lower ∧
    resize_rect 100 100 ⟨95, 95, r.width, r.height⟩ = ⟨84, 84, 16, 16⟩ := by
  obtain ⟨x, y, w, h⟩ := r
  simp only [resize_rect]
  refine ⟨?_, ?_, ?_, ?_, ?_, ?_, ?_, ?_, ?_⟩
  all_goals first | rfl | trivial | (split_ifs <;> simp only at * <;> omega)

/-! ## `set_rect_around_active_window` -/

/-- C9, as stated, fails: with `include_extents` set, extents of zero size and
an active window of 100 x 100 at (10, 10), the rectangle is changed to the
active-window rectangle, not to the extents. -/
theorem active_window_used_when_extents_missing :
    (set_rect_around_active_window ⟨130, 130, 260, 260⟩ ⟨10, 10, 100, 100⟩ ⟨0, 0, 0, 0⟩ true).1
      ≠ ⟨130, 130, 260, 260⟩ ∧
    (set_rect_around_active_window ⟨130, 130, 260, 260⟩ ⟨10, 10, 100, 100⟩ ⟨0, 0, 0, 0⟩ true).1
      = ⟨10, 10, 100, 100⟩ ∧
    (set_rect_around_active_window ⟨130, 130, 260, 260⟩ ⟨10, 10, 100, 100⟩ ⟨0, 0, 0, 0⟩ true).1
      ≠ ⟨0, 0, 0, 0⟩ := by
  decide

/-- C9, amended: whenever `set_rect_around_active_window` changes the
rectangle, it copies all four fields of the extents rectangle if that
rectangle has non-zero width and height and either `include_extents` is set
or the active-window rectangle is unavailable (zero width or height), and
otherwise copies all four fields of the raw active-window rectangle. -/
theorem set_rect_around_active_window_source (rect actv ext : GdkRectangle) (incl : Bool)
    (hch : (set_rect_around_active_window rect actv ext incl).1 ≠ rect) :
    (set_rect_around_active_window rect actv ext incl).1
      = (if ext.width ≠ 0 ∧ ext.height ≠ 0 ∧
            (incl = true ∨ actv.width = 0 ∨ actv.height = 0) then ext else actv) := by
  obtain ⟨rx, ry, rw, rh⟩ := rect
  obtain ⟨ax, ay, aw, ah⟩ := actv
  obtain ⟨ex, ey, ew, eh⟩ := ext
  revert hch
  simp only [set_rect_around_active_window, nonzero]
  by_cases h1 : ew = 0 <;> by_cases h2 : eh = 0 <;> by_cases h3 : aw = 0 <;>
    by_cases h4 : ah = 0 <;> cases incl <;> simp [h1, h2, h3, h4]

/-- Witness of `set_rect_around_active_window_source`: extents
(8, 4, 104, 130) around an active window (10, 30, 100, 100), extents
included. -/
theorem set_rect_around_active_window_source_witness :
    (set_rect_around_active_window ⟨130, 130, 260, 260⟩ ⟨10, 30, 100, 100⟩
        ⟨8, 4, 104, 130⟩ true).1
      = (if (104 : Int) ≠ 0 ∧ (130 : Int) ≠ 0 ∧
            (true = true ∨ (100 : Int) = 0 ∨ (100 : Int) = 0)
          then (⟨8, 4, 104, 130⟩ : GdkRectangle) else ⟨10, 30, 100, 100⟩) :=
  set_rect_around_active_window_source ⟨130, 130, 260, 260⟩ ⟨10, 30, 100, 100⟩
    ⟨8, 4, 104, 130⟩ true (by decide)

/-- For rectangles of non-negative width and height, "zero width or height"
and "not both positive" are the same, and C10 holds as worded. -/
theorem set_rect_around_active_window_not_positive (rect actv ext : GdkRectangle)
    (incl : Bool) (hew : 0 ≤ ext.width) (heh : 0 ≤ ext.height) (haw : 0 ≤ actv.width)
    (hah : 0 ≤ actv.height) (hext : ¬ (0 < ext.width ∧ 0 < ext.height))
    (hactv : ¬ (0 < actv.width ∧ 0 < actv.height)) :
    set_rect_around_active_window rect actv ext incl = (rect, true) := by
  have h1 : ext.width = 0 ∨ ext.height = 0 := by omega
  have h2 : actv.width = 0 ∨ actv.height = 0 := by omega
  simp only [set_rect_around_active_window, nonzero]
  rcases h1 with h | h <;> rcases h2 with h2 | h2 <;> simp [h, h2]

/-! ## `set_rect_to_previous` after `write_previous` -/

/-- The round trip for a rectangle with non-negative `x` and `width`. -/
theorem set_rect_to_previous_write_previous_pair (rect r : GdkRectangle)
    (hx : 0 ≤ r.x ∧ r.x ≤ 2 ^ 31) (hw : 0 ≤ r.width ∧ r.width ≤ 2 ^ 31)
    (hy : 0 ≤ r.y ∧ r.y < 100000) (hh : 0 ≤ r.height ∧ r.height < 100000) :
    set_rect_to_previous rect (write_previous_pair r) = r := by
  obtain ⟨x, y, w, h⟩ := r
  simp only at hx hw hy hh
  obtain ⟨p1, p2⟩ := decode_metric_of_nonneg x y hx.1 hx.2 hy.1 hy.2
  obtain ⟨q1, q2⟩ := decode_metric_of_nonneg w h hw.1 hw.2 hh.1 hh.2
  simp only [set_rect_to_previous, write_previous_pair, p1, p2, q1, q2]

/-- The round trip for a rectangle with negative `x` and positive `y`: `modf`
truncates toward zero, so `x` comes back one too large and `y` 100000 too
small. -/
theorem set_rect_to_previous_write_previous_pair_of_neg (rect r : GdkRectangle)
    (hx : r.x < 0 ∧ -2 ^ 31 ≤ r.x) (hw : 0 ≤ r.width ∧ r.width ≤ 2 ^ 31)
    (hy : 1 ≤ r.y ∧ r.y < 100000) (hh : 0 ≤ r.height ∧ r.height < 100000) :
    set_rect_to_previous rect (write_previous_pair r)
      = ⟨r.x + 1, r.y - 100000, r.width, r.height⟩ := by
  obtain ⟨x, y, w, h⟩ := r
  simp only at hx hw hy hh
  obtain ⟨p1, p2⟩ := decode_metric_of_neg x y hx.1 hx.2 hy.1 hy.2
  obtain ⟨q1, q2⟩ := decode_metric_of_nonneg w h hw.1 hw.2 hh.1 hh.2
  simp only [set_rect_to_previous, write_previous_pair, p1, p2, q1, q2]

/-- C1 fails on the code at a rectangle the program itself produces: a right
click at (5, 100) on the rectangle (130, 20, 260, 260) gives
(-11, 20, 16, 80), the clamp step leaves it alone, and what
`set_rect_to_previous` decodes from the pair `write_previous` computes for
it is (-10, -99980, 16, 80). -/
theorem previous_rect_lost_at_negative_x :
    resize_rect 5 100 ⟨130, 20, 260, 260⟩ = ⟨-11, 20, 16, 80⟩ ∧
    draw_rect_clamp 1920 1080 ⟨-11, 20, 16, 80⟩ = ⟨-11, 20, 16, 80⟩ ∧
    set_rect_to_previous ⟨130, 130, 260, 260⟩ (write_previous_pair ⟨-11, 20, 16, 80⟩)
      = ⟨-10, -99980, 16, 80⟩ := by
  refine ⟨by decide, by decide, ?_⟩
  rw [set_rect_to_previous_write_previous_pair_of_neg _ _ (by decide) (by decide)
    (by decide) (by decide)]
  decide

/-! ## `scroll_resize_to_preset` -/

theorem scroll_up_size (r : GdkRectangle) (p : List Double) :
    (scroll_resize_to_preset GdkScrollDirection.GDK_SCROLL_UP r p).width
      = toInt (get_w (p.getD (search_down p (scroll_widthheight r) (p.length - 1)) 0)) ∧
    (scroll_resize_to_preset GdkScrollDirection.GDK_SCROLL_UP r p).height
      = toInt (get_h (p.getD (search_down p (scroll_widthheight r) (p.length - 1)) 0)) := by
  simp [scroll_resize_to_preset, scroll_index]

theorem scroll_down_size (r : GdkRectangle) (p : List Double) :
    (scroll_resize_to_preset GdkScrollDirection.GDK_SCROLL_DOWN r p).width
      = toInt (get_w (p.getD (search_up p (scroll_widthheight r) (p.length - 1) 0) 0)) ∧
    (scroll_resize_to_preset GdkScrollDirection.GDK_SCROLL_DOWN r p).height
      = toInt (get_h (p.getD (search_up p (scroll_widthheight r) (p.length - 1) 0) 0)) := by
  simp [scroll_resize_to_preset, scroll_index]

/-- The table of the sizes 160 x 90, 320 x 180 and 640 x 360 is strictly
increasing. -/
theorem three_presets_pairwise :
    [metric 160 90, metric 320 180, metric 640 360].Pairwise (fun a b => a < b) := by
  have h12 : metric 160 90 < metric 320 180 :=
    metric_lt_metric 160 90 320 180 (by decide) (by decide) (by decide) (by decide)
      (Or.inl (by decide))
  have h23 : metric 320 180 < metric 640 360 :=
    metric_lt_metric 320 180 640 360 (by decide) (by decide) (by decide) (by decide)
      (Or.inl (by decide))
  have h13 := lt_trans h12 h23
  simp [h12, h23, h13]

/-! ### Tables of three presets

The facts below are stated for arbitrary entries, so that using them at the
encodings of concrete sizes never asks for those encodings to be computed. -/

theorem three_length (a b c : Double) : [a, b, c].length - 1 = 2 := rfl

theorem three_length_pos (a b c : Double) : 0 < [a, b, c].length := Nat.succ_pos _

theorem three_getD_zero (a b c : Double) : [a, b, c].getD 0 0 = a := rfl

theorem three_getD_one (a b c : Double) : [a, b, c].getD 1 0 = b := rfl

theorem three_getD_two (a b c : Double) : [a, b, c].getD 2 0 = c := rfl

theorem scroll_widthheight_mk (x y w h : Int) :
    scroll_widthheight ⟨x, y, w, h⟩ = metric w h := rfl

theorem search_down_three (a b c wh : Double) (hb : ¬ b < wh) (hc : ¬ c < wh) :
    search_down [a, b, c] wh 2 = 0 := by
  simp [search_down, hb, hc]

theorem search_up_three (a b c wh : Double) (ha : ¬ a > wh) (hb : ¬ b > wh) :
    search_up [a, b, c] wh 2 0 = 2 := by
  simp only [search_up, three_getD_zero, three_getD_one, List.getD_cons_succ,
    List.getD_cons_zero, ha, hb, decide_False, Bool.not_false, if_true]

theorem three_first_is_max (a b c wh : Double) (hb : ¬ b < wh) (hc : ¬ c < wh) :
    ∀ j, j < [a, b, c].length → [a, b, c].getD j 0 < wh →
      [a, b, c].getD j 0 ≤ [a, b, c].getD 0 0 := by
  intro j hj hlt
  have hj3 : j < 3 := hj
  interval_cases j
  · exact le_refl _
  · exact absurd hlt hb
  · exact absurd hlt hc

theorem three_presets_lt :
    metric 160 90 < metric 320 180 ∧ metric 320 180 < metric 640 360 :=
  ⟨metric_lt_metric 160 90 320 180 (by decide) (by decide) (by decide) (by decide)
      (Or.inl (by decide)),
    metric_lt_metric 320 180 640 360 (by decide) (by decide) (by decide) (by decide)
      (Or.inl (by decide))⟩

/-- Scrolling on a table of three presets from the size of the middle one. -/
theorem scroll_three (a b c : Double) (hab : a < b) (hbc : b < c) (r : GdkRectangle)
    (hr : scroll_widthheight r = b) :
    (scroll_resize_to_preset GdkScrollDirection.GDK_SCROLL_UP r [a, b, c]).width
      = toInt (get_w a) ∧
    (scroll_resize_to_preset GdkScrollDirection.GDK_SCROLL_UP r [a, b, c]).height
      = toInt (get_h a) ∧
    (scroll_resize_to_preset GdkScrollDirection.GDK_SCROLL_DOWN r [a, b, c]).width
      = toInt (get_w c) ∧
    (scroll_resize_to_preset GdkScrollDirection.GDK_SCROLL_DOWN r [a, b, c]).height
      = toInt (get_h c) := by
  obtain ⟨u1, u2⟩ := scroll_up_size r [a, b, c]
  obtain ⟨d1, d2⟩ := scroll_down_size r [a, b, c]
  have hup : search_down [a, b, c] (scroll_widthheight r) 2 = 0 :=
    search_down_three a b c _ (by rw [hr]; exact lt_irrefl _)
      (by rw [hr]; exact not_lt.mpr (le_of_lt hbc))
  have hdown : search_up [a, b, c] (scroll_widthheight r) 2 0 = 2 :=
    search_up_three a b c _ (by rw [hr]; exact not_lt.mpr (le_of_lt hab))
      (by rw [hr]; exact lt_irrefl _)
  rw [three_length, hup, three_getD_zero] at u1 u2
  rw [three_length, hdown, three_getD_two] at d1 d2
  exact ⟨u1, u2, d1, d2⟩

theorem three_presets_scroll (x y : Int) :
    (scroll_resize_to_preset GdkScrollDirection.GDK_SCROLL_UP ⟨x, y, 320, 180⟩
        [metric 160 90, metric 320 180, metric 640 360]).width = 160 ∧
    (scroll_resize_to_preset GdkScrollDirection.GDK_SCROLL_UP ⟨x, y, 320, 180⟩
        [metric 160 90, metric 320 180, metric 640 360]).height = 90 ∧
    (scroll_resize_to_preset GdkScrollDirection.GDK_SCROLL_DOWN ⟨x, y, 320, 180⟩
        [metric 160 90, metric 320 180, metric 640 360]).width = 640 ∧
    (scroll_resize_to_preset GdkScrollDirection.GDK_SCROLL_DOWN ⟨x, y, 320, 180⟩
        [metric 160 90, metric 320 180, metric 640 360]).height = 360 := by
  have h := scroll_three (metric 160 90) (metric 320 180) (metric 640 360)
    three_presets_lt.1 three_presets_lt.2 ⟨x, y, 320, 180⟩ (scroll_widthheight_mk x y 320 180)
  rw [get_w_metric 160 90 (by decide) (by decide) (by decide),
    get_h_metric 160 90 (by decide) (by decide) (by decide),
    get_w_metric 640 360 (by decide) (by decide) (by decide),
    get_h_metric 640 360 (by decide) (by decide) (by decide)] at h
  exact h

/-- C6: on a strictly increasing preset table, scroll-up sets width and height
to the largest preset below the metric of the current size whenever there is
one, scroll-down to the smallest preset above it whenever there is one; a
size above all presets scrolls up to the last preset, a size below all
presets scrolls down to the first; and with the presets 160 x 90, 320 x 180,
640 x 360 and the size 320 x 180, scroll-up gives 160 x 90 and scroll-down
640 x 360. -/
theorem scroll_resize_to_preset_spec (presets : List Double) (r : GdkRectangle)
    (hs : presets.Pairwise (fun a b => a < b)) :
    (∀ k, k < presets.length → presets.getD k 0 < scroll_widthheight r →
      (∀ j, j < presets.length → presets.getD j 0 < scroll_widthheight r →
        presets.getD j 0 ≤ presets.getD k 0) →
      (scroll_resize_to_preset GdkScrollDirection.GDK_SCROLL_UP r presets).width
          = toInt (get_w (presets.getD k 0)) ∧
        (scroll_resize_to_preset GdkScrollDirection.GDK_SCROLL_UP r presets).height
          = toInt (get_h (presets.getD k 0))) ∧
    (∀ k, k < presets.length → scroll_widthheight r < presets.getD k 0 →
      (∀ j, j < presets.length → scroll_widthheight r < presets.getD j 0 →
        presets.getD k 0 ≤ presets.getD j 0) →
      (scroll_resize_to_preset GdkScrollDirection.GDK_SCROLL_DOWN r presets).width
          = toInt (get_w (presets.getD k 0)) ∧
        (scroll_resize_to_preset GdkScrollDirection.GDK_SCROLL_DOWN r presets).height
          = toInt (get_h (presets.getD k 0))) ∧
    (0 < presets.length →
      (∀ j, j < presets.length → presets.getD j 0 < scroll_widthheight r) →
      (scroll_resize_to_preset GdkScrollDirection.GDK_SCROLL_UP r presets).width
          = toInt (get_w (presets.getD (presets.length - 1) 0)) ∧
        (scroll_resize_to_preset GdkScrollDirection.GDK_SCROLL_UP r presets).height
          = toInt (get_h (presets.getD (presets.length - 1) 0))) ∧
    (0 < presets.length →
      (∀ j, j < presets.length → scroll_widthheight r < presets.getD j 0) →
      (scroll_resize_to_preset GdkScrollDirection.GDK_SCROLL_DOWN r presets).width
          = toInt (get_w (presets.getD 0 0)) ∧
        (scroll_resize_to_preset GdkScrollDirection.GDK_SCROLL_DOWN r presets).height
          = toInt (get_h (presets.getD 0 0))) ∧
    ((scroll_resize_to_preset GdkScrollDirection.GDK_SCROLL_UP ⟨r.x, r.y, 320, 180⟩
        [metric 160 90, metric 320 180, metric 640 360]).width = 160 ∧
      (scroll_resize_to_preset GdkScrollDirection.GDK_SCROLL_UP ⟨r.x, r.y, 320, 180⟩
        [metric 160 90, metric 320 180, metric 640 360]).height = 90 ∧
      (scroll_resize_to_preset GdkScrollDirection.GDK_SCROLL_DOWN ⟨r.x, r.y, 320, 180⟩
        [metric 160 90, metric 320 180, metric 640 360]).width = 640 ∧
      (scroll_resize_to_preset GdkScrollDirection.GDK_SCROLL_DOWN ⟨r.x, r.y, 320, 180⟩
        [metric 160 90, metric 320 180, metric 640 360]).height = 360) := by
  obtain ⟨u1, u2⟩ := scroll_up_size r presets
  obtain ⟨d1, d2⟩ := scroll_down_size r presets
  refine ⟨?_, ?_, ?_, ?_, three_presets_scroll r.x r.y⟩
  · intro k hk hlt hmax
    rw [u1, u2, search_down_eq presets hs _ k hk hlt hmax]
    exact ⟨rfl, rfl⟩
  · intro k hk hgt hmin
    rw [d1, d2, search_up_eq presets hs _ k hk hgt hmin]
    exact ⟨rfl, rfl⟩
  · intro hn hall
    rw [u1, u2, search_down_eq presets hs _ (presets.length - 1) (by omega)
      (hall _ (by omega))]
    · exact ⟨rfl, rfl⟩
    · intro j hj _
      rcases Nat.eq_or_lt_of_le (Nat.le_sub_one_of_lt hj) with h | h
      · rw [h]
      · exact le_of_lt (getD_lt_getD_of_pairwise presets hs j _ h (by omega))
  · intro hn hall
    rw [d1, d2, search_up_eq presets hs _ 0 hn (hall _ hn)]
    · exact ⟨rfl, rfl⟩
    · intro j hj _
      rcases Nat.eq_zero_or_pos j with h | h
      · rw [h]
      · exact le_of_lt (getD_lt_getD_of_pairwise presets hs 0 j h hj)

/-- Witness of `scroll_resize_to_preset_spec`: the table of 160 x 90,
320 x 180 and 640 x 360 and the start-up rectangle, whose size 260 x 260
lies between the first two presets; scroll-up takes the first preset. -/
theorem scroll_resize_to_preset_spec_witness :
    [metric 160 90, metric 320 180, metric 640 360].Pairwise (fun a b => a < b) ∧
    (scroll_resize_to_preset GdkScrollDirection.GDK_SCROLL_UP ⟨130, 130, 260, 260⟩
        [metric 160 90, metric 320 180, metric 640 360]).width
      = toInt (get_w ([metric 160 90, metric 320 180, metric 640 360].getD 0 0)) :=
  have h01 : metric 160 90 < metric 260 260 :=
    metric_lt_metric 160 90 260 260 (by decide) (by decide) (by decide) (by decide)
      (Or.inl (by decide))
  have h12 : metric 260 260 < metric 320 180 :=
    metric_lt_metric 260 260 320 180 (by decide) (by decide) (by decide) (by decide)
      (Or.inl (by decide))
  have h13 : metric 260 260 < metric 640 360 := lt_trans h12 three_presets_lt.2
  ⟨three_presets_pairwise,
    ((scroll_resize_to_preset_spec [metric 160 90, metric 320 180, metric 640 360]
      ⟨130, 130, 260, 260⟩ three_presets_pairwise).1 0 (three_length_pos _ _ _)
      (by rw [three_getD_zero, scroll_widthheight_mk]; exact h01)
      (three_first_is_max _ _ _ _
        (by rw [scroll_widthheight_mk]; exact not_lt.mpr (le_of_lt h12))
        (by rw [scroll_widthheight_mk]; exact not_lt.mpr (le_of_lt h13)))).1⟩

/-! ## `drag_resize_to_preset` -/

theorem fl_natCast_small (n : ℕ) (h : n < 2 ^ 53) : fl (n : ℚ) = n := by
  have := fl_intCast (n : ℤ) (by rw [abs_of_nonneg (by positivity)]; exact_mod_cast h)
  simpa using this

theorem drag_size (right lower : Double) (p : List Double) (r : GdkRectangle) :
    (drag_resize_to_preset right lower p r).width
      = toInt (get_w (p.getD
          (search_down p (drag_widthheight right lower r) (p.length - 1)) 0)) ∧
    (drag_resize_to_preset right lower p r).height
      = toInt (get_h (p.getD
          (search_down p (drag_widthheight right lower r) (p.length - 1)) 0)) ∧
    (drag_resize_to_preset right lower p r).x = toInt (drag_origin right lower r).1 ∧
    (drag_resize_to_preset right lower p r).y = toInt (drag_origin right lower r).2 := by
  simp [drag_resize_to_preset]

/-- A drag to the corner (320, 180) from the origin (0, 0) has exactly the
metric of the preset 320 x 180. -/
theorem drag_widthheight_at_preset (w h : Int) :
    drag_widthheight 320 180 ⟨0, 0, w, h⟩ = metric 320 180 := by
  have f0 : fl (0 : ℚ) = 0 := fl_zero
  have f320 : fl (320 : ℚ) = 320 := by
    have := fl_natCast_small 320 (by norm_num); simpa using this
  have f180 : fl (180 : ℚ) = 180 := by
    have := fl_natCast_small 180 (by norm_num); simpa using this
  have t320 : truncZ (320 : ℚ) = 320 := by
    have := truncZ_intCast 320; simpa using this
  have t180 : truncZ (180 : ℚ) = 180 := by
    have := truncZ_intCast 180; simpa using this
  simp only [drag_widthheight, drag_origin, metric, modf, dsub, dadd, ddiv, ofInt,
    Int.cast_zero, Int.cast_ofNat, sub_zero, f0, f320, f180, t320, t180]
  norm_num [f320, f180]

/-- Dragging on a table of three presets when only the first one can be
strictly below the metric of the drag. -/
theorem drag_three (a b c : Double) (right lower : Double) (r : GdkRectangle)
    (hb : ¬ b < drag_widthheight right lower r)
    (hc : ¬ c < drag_widthheight right lower r) :
    search_down [a, b, c] (drag_widthheight right lower r) 2 = 0 ∧
    (drag_resize_to_preset right lower [a, b, c] r).width = toInt (get_w a) ∧
    (drag_resize_to_preset right lower [a, b, c] r).height = toInt (get_h a) := by
  obtain ⟨s1, s2, _, _⟩ := drag_size right lower [a, b, c] r
  have hidx := search_down_three a b c _ hb hc
  rw [three_length, hidx, three_getD_zero] at s1 s2
  exact ⟨hidx, s1, s2⟩

/-- C7, as stated, fails: dragging from the origin (0, 0) to the corner
(320, 180) gives exactly the metric of the preset 320 x 180, which is
therefore the largest preset not greater than the metric, but the search
skips every preset that is not strictly smaller, ends at index 0, and the
rectangle gets the size 160 x 90. -/
theorem drag_skips_preset_of_equal_metric :
    [metric 160 90, metric 320 180, metric 640 360].Pairwise (fun a b => a < b) ∧
    metric 320 180 ≤ drag_widthheight 320 180 ⟨0, 0, 260, 260⟩ ∧
    ¬ (metric 640 360 ≤ drag_widthheight 320 180 ⟨0, 0, 260, 260⟩) ∧
    search_down [metric 160 90, metric 320 180, metric 640 360]
      (drag_widthheight 320 180 ⟨0, 0, 260, 260⟩) 2 = 0 ∧
    toInt (get_w (metric 320 180)) = 320 ∧
    toInt (get_h (metric 320 180)) = 180 ∧
    (drag_resize_to_preset 320 180 [metric 160 90, metric 320 180, metric 640 360]
      ⟨0, 0, 260, 260⟩).width = 160 ∧
    (drag_resize_to_preset 320 180 [metric 160 90, metric 320 180, metric 640 360]
      ⟨0, 0, 260, 260⟩).height = 90 := by
  have hm := drag_widthheight_at_preset 260 260
  have h := drag_three (metric 160 90) (metric 320 180) (metric 640 360) 320 180
    ⟨0, 0, 260, 260⟩ (by rw [hm]; exact lt_irrefl _)
    (by rw [hm]; exact not_lt.mpr (le_of_lt three_presets_lt.2))
  rw [get_w_metric 160 90 (by decide) (by decide) (by decide),
    get_h_metric 160 90 (by decide) (by decide) (by decide)] at h
  refine ⟨three_presets_pairwise, ?_, ?_, h.1,
    get_w_metric 320 180 (by decide) (by decide) (by decide),
    get_h_metric 320 180 (by decide) (by decide) (by decide), h.2.1, h.2.2⟩
  · rw [hm]
  · rw [hm]; exact not_le.mpr three_presets_lt.2

/-- C7, amended: on a strictly increasing preset table, `drag_resize_to_preset`
sets width and height to the largest preset entry whose metric is strictly
smaller than `m = (right - x') + (lower - y')/100000`, where `(x', y')` is the
origin after the 16-unit push, and to the first preset when no entry is
strictly smaller; the origin becomes `(x', y')`. -/
theorem drag_resize_to_preset_spec (presets : List Double) (right lower : Double)
    (r : GdkRectangle) (hs : presets.Pairwise (fun a b => a < b)) :
    (∀ k, k < presets.length → presets.getD k 0 < drag_widthheight right lower r →
      (∀ j, j < presets.length → presets.getD j 0 < drag_widthheight right lower r →
        presets.getD j 0 ≤ presets.getD k 0) →
      (drag_resize_to_preset right lower presets r).width
          = toInt (get_w (presets.getD k 0)) ∧
        (drag_resize_to_preset right lower presets r).height
          = toInt (get_h (presets.getD k 0))) ∧
    (0 < presets.length →
      (∀ j, j < presets.length → ¬ presets.getD j 0 < drag_widthheight right lower r) →
      (drag_resize_to_preset right lower presets r).width
          = toInt (get_w (presets.getD 0 0)) ∧
        (drag_resize_to_preset right lower presets r).height
          = toInt (get_h (presets.getD 0 0))) ∧
    (drag_resize_to_preset right lower presets r).x = toInt (drag_origin right lower r).1 ∧
    (drag_resize_to_preset right lower presets r).y = toInt (drag_origin right lower r).2 := by
  obtain ⟨s1, s2, s3, s4⟩ := drag_size right lower presets r
  refine ⟨?_, ?_, s3, s4⟩
  · intro k hk hlt hmax
    rw [s1, s2, search_down_eq presets hs _ k hk hlt hmax]
    exact ⟨rfl, rfl⟩
  · intro _ hnone
    have h0 : search_down presets (drag_widthheight right lower r) (presets.length - 1) = 0 := by
      by_contra hc
      have hpos : 0 < search_down presets (drag_widthheight right lower r)
          (presets.length - 1) := by omega
      have hle := search_down_le presets (drag_widthheight right lower r) (presets.length - 1)
      exact hnone _ (by omega) (search_down_found _ _ _ hpos)
    rw [s1, s2, h0]
    exact ⟨rfl, rfl⟩

/-- Witness of `drag_resize_to_preset_spec`: a drag from the origin (0, 0) to
the corner (320, 180); the preset 160 x 90 is the largest one strictly below
the metric of 320 x 180. -/
theorem drag_resize_to_preset_spec_witness :
    [metric 160 90, metric 320 180, metric 640 360].Pairwise (fun a b => a < b) ∧
    (drag_resize_to_preset 320 180 [metric 160 90, metric 320 180, metric 640 360]
      ⟨0, 0, 260, 260⟩).width
      = toInt (get_w ([metric 160 90, metric 320 180, metric 640 360].getD 0 0)) :=
  ⟨three_presets_pairwise,
    ((drag_resize_to_preset_spec [metric 160 90, metric 320 180, metric 640 360] 320 180
      ⟨0, 0, 260, 260⟩ three_presets_pairwise).1 0 (three_length_pos _ _ _)
      (by rw [three_getD_zero, drag_widthheight_at_preset]; exact three_presets_lt.1)
      (three_first_is_max _ _ _ _
        (by rw [drag_widthheight_at_preset]; exact lt_irrefl _)
        (by rw [drag_widthheight_at_preset]
            exact not_lt.mpr (le_of_lt three_presets_lt.2)))).1⟩

/-! ## The geometry handed to the window system -/

theorem draw_rect_init_mirror_data (s : Session) :
    (draw_rect_init s).should_resize_active = s.should_resize_active ∧
    (draw_rect_init s).include_extents = s.include_extents ∧
    (draw_rect_init s).dx = s.dx ∧ (draw_rect_init s).dy = s.dy ∧
    (draw_rect_init s).dw = s.dw ∧ (draw_rect_init s).dh = s.dh := by
  unfold draw_rect_init
  split_ifs <;> exact ⟨rfl, rfl, rfl, rfl, rfl, rfl⟩

theorem draw_rect_snd (s : Session) : (draw_rect s).2 = draw_rect_mirror (draw_rect s).1 := rfl

theorem draw_rect_mirror_data (s : Session) :
    (draw_rect s).1.should_resize_active = s.should_resize_active ∧
    (draw_rect s).1.include_extents = s.include_extents ∧
    (draw_rect s).1.dx = s.dx ∧ (draw_rect s).1.dy = s.dy ∧
    (draw_rect s).1.dw = s.dw ∧ (draw_rect s).1.dh = s.dh := by
  simp only [draw_rect]
  exact draw_rect_init_mirror_data s

/-- C11: the geometry `draw_rect` hands to `gdk_window_move_resize` is
`(x - dx, y - dy, width - dw, height - dh)` when `include_extents` is set and
`(x, y, width, height)` when it is not, `(x, y, width, height)` being the
rectangle `draw_rect` leaves; nothing is handed over when
`should_resize_active` is not set. -/
theorem mirror_geometry (s : Session) :
    (s.should_resize_active = false → (draw_rect s).2 = none) ∧
    (s.should_resize_active = true → s.include_extents = true →
      (draw_rect s).2 = some ⟨(draw_rect s).1.area_rect.x - s.dx,
        (draw_rect s).1.area_rect.y - s.dy, (draw_rect s).1.area_rect.width - s.dw,
        (draw_rect s).1.area_rect.height - s.dh⟩) ∧
    (s.should_resize_active = true → s.include_extents = false →
      (draw_rect s).2 = some (draw_rect s).1.area_rect) ∧
    (s.should_resize_active = false → draw_rect_mirror s = none) ∧
    (s.should_resize_active = true → s.include_extents = true →
      draw_rect_mirror s = some ⟨s.area_rect.x - s.dx, s.area_rect.y - s.dy,
        s.area_rect.width - s.dw, s.area_rect.height - s.dh⟩) ∧
    (s.should_resize_active = true → s.include_extents = false →
      draw_rect_mirror s = some s.area_rect) := by
  obtain ⟨e1, e2, e3, e4, e5, e6⟩ := draw_rect_mirror_data s
  rw [draw_rect_snd]
  refine ⟨?_, ?_, ?_, ?_, ?_, ?_⟩
  · intro h; simp [draw_rect_mirror, e1, h]
  · intro h1 h2; simp [draw_rect_mirror, e1, e2, e3, e4, e5, e6, h1, h2]
  · intro h1 h2; simp [draw_rect_mirror, e1, e2, h1, h2]
  · intro h; simp [draw_rect_mirror, h]
  · intro h1 h2; simp [draw_rect_mirror, h1, h2]
  · intro h1 h2; simp [draw_rect_mirror, h1, h2]

/-- C20: with the offsets computed by `setup_widget_data_pointers` (extents
minus active window, component-wise) and extents included, mirroring a
rectangle equal to the extents rectangle hands over the geometry of the
active window itself; `draw_rect` as a whole does so whenever the extents
fit the surface and no initialisation is pending. -/
theorem mirror_of_extents_is_active_window (actv_win extents surface_rect : GdkRectangle)
    (presets : List Double) (previous : Double × Double) (area : String) :
    draw_rect_mirror
        { setup_widget_data_pointers actv_win extents surface_rect presets previous area with
          area_rect := extents, should_resize_active := true } = some actv_win ∧
    (extents.x + extents.width ≤ surface_rect.width →
      extents.y + extents.height ≤ surface_rect.height →
      (draw_rect
        { setup_widget_data_pointers actv_win extents surface_rect presets previous area with
          area_rect := extents, should_resize_active := true }).2 = some actv_win) := by
  obtain ⟨ax, ay, aw, ah⟩ := actv_win
  obtain ⟨ex, ey, ew, eh⟩ := extents
  have h1 : draw_rect_mirror
      { setup_widget_data_pointers ⟨ax, ay, aw, ah⟩ ⟨ex, ey, ew, eh⟩ surface_rect presets
          previous area with
        area_rect := ⟨ex, ey, ew, eh⟩, should_resize_active := true }
      = some ⟨ax, ay, aw, ah⟩ := by
    simp [draw_rect_mirror, setup_widget_data_pointers]
  refine ⟨h1, ?_⟩
  intro hx hy
  simp only at hx hy
  simp only [draw_rect]
  rw [draw_rect_init_of_flag_false _ rfl]
  simp only [setup_widget_data_pointers]
  rw [draw_rect_clamp_of_fits _ _ _ hx hy]
  simp [draw_rect_mirror]

/-! ## `set_rect_around_center_fourth` -/

/-- C15: for a surface of size `W x H` with `W, H ≥ 0`,
`set_rect_around_center_fourth` sets `x = W / 4`, `y = H / 4`,
`width = W / 2`, `height = H / 2` (integer division); the rectangle lies
inside the monitor and the clamp step leaves it unchanged. -/
theorem center_fourth_inside_monitor (rect surface_rect : GdkRectangle)
    (hW : 0 ≤ surface_rect.width) (hH : 0 ≤ surface_rect.height) :
    set_rect_around_center_fourth rect surface_rect
      = ⟨surface_rect.width / 4, surface_rect.height / 4,
         surface_rect.width / 2, surface_rect.height / 2⟩ ∧
    0 ≤ (set_rect_around_center_fourth rect surface_rect).x ∧
    0 ≤ (set_rect_around_center_fourth rect surface_rect).y ∧
    (set_rect_around_center_fourth rect surface_rect).x
      + (set_rect_around_center_fourth rect surface_rect).width ≤ surface_rect.width ∧
    (set_rect_around_center_fourth rect surface_rect).y
      + (set_rect_around_center_fourth rect surface_rect).height ≤ surface_rect.height ∧
    draw_rect_clamp surface_rect.width surface_rect.height
        (set_rect_around_center_fourth rect surface_rect)
      = set_rect_around_center_fourth rect surface_rect := by
  have e : set_rect_around_center_fourth rect surface_rect
      = ⟨surface_rect.width / 4, surface_rect.height / 4,
         surface_rect.width / 2, surface_rect.height / 2⟩ := by
    simp only [set_rect_around_center_fourth]
    rw [Int.tdiv_eq_ediv hW (by decide), Int.tdiv_eq_ediv hH (by decide),
      Int.tdiv_eq_ediv hW (by decide), Int.tdiv_eq_ediv hH (by decide)]
  rw [e]
  refine ⟨rfl, ?_, ?_, ?_, ?_, ?_⟩
  · simp only; omega
  · simp only; omega
  · simp only; omega
  · simp only; omega
  · exact draw_rect_clamp_of_fits _ _ _ (by simp only; omega) (by simp only; omega)

/-- Witness of `center_fourth_inside_monitor`: a 1920 x 1080 surface. -/
theorem center_fourth_inside_monitor_witness :
    set_rect_around_center_fourth ⟨130, 130, 260, 260⟩ ⟨0, 0, 1920, 1080⟩
      = ⟨(1920 : Int) / 4, (1080 : Int) / 4, (1920 : Int) / 2, (1080 : Int) / 2⟩ :=
  (center_fourth_inside_monitor ⟨130, 130, 260, 260⟩ ⟨0, 0, 1920, 1080⟩
    (by decide) (by decide)).1

/-! ## The first draw -/

/-- The initialisation step with a mode string that is none of "e", "i"
and "c". -/
theorem draw_rect_init_of_other_mode (s : Session) (hflag : s.surface_became_fullscreen = true)
    (he : s.area ≠ "e") (hi : s.area ≠ "i") (hc : s.area ≠ "c") :
    draw_rect_init s
      = { s with surface_became_fullscreen := false,
                 area_rect := set_rect_to_previous s.area_rect s.previous } := by
  simp [draw_rect_init, hflag, he, hi, hc]

/-- C16: on the first draw after the surface became fullscreen, with a mode
string that is none of "e", "i" and "c", `draw_rect` takes the rectangle
`set_rect_to_previous` decodes from the previous pair, exactly as for the mode
"p", and clears the flag, so that the next `draw_rect` initialises nothing. -/
theorem unknown_mode_is_previous (s : Session) (hflag : s.surface_became_fullscreen = true)
    (he : s.area ≠ "e") (hi : s.area ≠ "i") (hc : s.area ≠ "c") :
    (draw_rect_init s).area_rect = set_rect_to_previous s.area_rect s.previous ∧
    (draw_rect s).1.area_rect
      = draw_rect_clamp s.surface_rect.width s.surface_rect.height
          (set_rect_to_previous s.area_rect s.previous) ∧
    (draw_rect s).1.area_rect = (draw_rect { s with area := "p" }).1.area_rect ∧
    (draw_rect s).2 = (draw_rect { s with area := "p" }).2 ∧
    (draw_rect s).1.surface_became_fullscreen = false ∧
    draw_rect_init (draw_rect s).1 = (draw_rect s).1 ∧
    (draw_rect (draw_rect s).1).1 = (draw_rect s).1 := by
  have hinit := draw_rect_init_of_other_mode s hflag he hi hc
  have hp : ("p" : String) ≠ "e" ∧ ("p" : String) ≠ "i" ∧ ("p" : String) ≠ "c" := by decide
  have hinitp := draw_rect_init_of_other_mode { s with area := "p" } hflag hp.1 hp.2.1 hp.2.2
  have hf : (draw_rect s).1.surface_became_fullscreen = false := by
    simp only [draw_rect]; exact draw_rect_init_flag s
  have hi2 : draw_rect_init (draw_rect s).1 = (draw_rect s).1 :=
    draw_rect_init_of_flag_false _ hf
  refine ⟨?_, ?_, ?_, ?_, hf, hi2, ?_⟩
  · rw [hinit]
  · simp only [draw_rect, hinit]
  · simp only [draw_rect, hinit, hinitp]
  · simp only [draw_rect, hinit, hinitp, draw_rect_mirror]
  · have hfit := draw_rect_clamp_fits s.surface_rect.width s.surface_rect.height
      (set_rect_to_previous s.area_rect s.previous)
    simp only [draw_rect, hinit]
    rw [draw_rect_init_of_flag_false _ rfl]
    simp only
    rw [draw_rect_clamp_of_fits _ _ _ hfit.1 hfit.2]

/-- Witness of `unknown_mode_is_previous`: the mode string "x". -/
theorem unknown_mode_is_previous_witness :
    (draw_rect
      { setup_widget_data_pointers ⟨0, 0, 0, 0⟩ ⟨0, 0, 0, 0⟩ ⟨0, 0, 1920, 1080⟩ [] (0, 0) "x"
        with surface_became_fullscreen := true }).1.surface_became_fullscreen = false :=
  (unknown_mode_is_previous
    { setup_widget_data_pointers ⟨0, 0, 0, 0⟩ ⟨0, 0, 0, 0⟩ ⟨0, 0, 1920, 1080⟩ [] (0, 0) "x"
      with surface_became_fullscreen := true }
    rfl (by decide) (by decide) (by decide)).2.2.2.2.1

/-! ## What `scroll_resize_to_preset` leaves alone -/

/-- C17: `scroll_resize_to_preset` never changes `x` or `y`, and for a
direction other than up and down it changes nothing. -/
theorem scroll_frame (direction : GdkScrollDirection) (r : GdkRectangle)
    (presets : List Double) :
    (scroll_resize_to_preset direction r presets).x = r.x ∧
    (scroll_resize_to_preset direction r presets).y = r.y ∧
    (direction ≠ GdkScrollDirection.GDK_SCROLL_UP →
      direction ≠ GdkScrollDirection.GDK_SCROLL_DOWN →
      scroll_resize_to_preset direction r presets = r) := by
  unfold scroll_resize_to_preset
  refine ⟨?_, ?_, ?_⟩
  · split_ifs <;> rfl
  · split_ifs <;> rfl
  · intro h1 h2
    rw [if_neg (by simp [h1, h2])]

/-! ## The fullscreen flag and the event callbacks -/

theorem toInt_intCast (n : ℤ) : toInt ((n : ℤ) : ℚ) = n := truncZ_intCast n

theorem draw_rect_area_is_fullscreen (s : Session) :
    (draw_rect s).1.area_is_fullscreen = s.area_is_fullscreen := by
  simp only [draw_rect]
  exact (draw_rect_init_toggle_state s).1

theorem toggle_fullscreen_area_flag (aw ah : Int) (s : Session) :
    (toggle_fullscreen_area aw ah s).1.area_is_fullscreen = !s.area_is_fullscreen := by
  unfold toggle_fullscreen_area
  split_ifs with h
  · rw [draw_rect_area_is_fullscreen]
    simp only [Bool.not_eq_true'] at h
    simp [h]
  · rw [draw_rect_area_is_fullscreen]
    simp only [Bool.not_eq_true', Bool.not_eq_false] at h
    simp [h]

theorem handle_event_flag (e : Event) (s : Session) :
    (handle_event e s).area_is_fullscreen
      = (if is_toggle_event e then !s.area_is_fullscreen else s.area_is_fullscreen) := by
  cases e with
  | button_press button x y =>
    simp only [handle_event, button_press_event_cb, is_toggle_event, Bool.false_eq_true,
      if_false]
    split_ifs <;> first | rfl | rw [draw_rect_area_is_fullscreen]
  | scroll direction =>
    simp only [handle_event, scroll_event_cb, is_toggle_event, Bool.false_eq_true, if_false]
    rw [draw_rect_area_is_fullscreen]
  | motion_notify state x y =>
    simp only [handle_event, motion_notify_event_cb, is_toggle_event, Bool.false_eq_true,
      if_false]
    split_ifs <;> first | rfl | rw [draw_rect_area_is_fullscreen]
  | key_release keyval aw ah =>
    simp only [handle_event, key_event_cb, is_toggle_event]
    by_cases hk : keyval = GDK_KEY_F11
    · simp [hk, toggle_fullscreen_area_flag]
    · simp [hk]

theorem run_events_cons (e : Event) (es : List Event) (s : Session) :
    run_events (e :: es) s = run_events es (handle_event e s) := rfl

theorem run_events_flag (events : List Event) (s : Session) :
    (run_events events s).area_is_fullscreen
      = xor s.area_is_fullscreen (decide (events.countP is_toggle_event % 2 = 1)) := by
  induction events generalizing s with
  | nil => simp [run_events]
  | cons e es ih =>
    rw [run_events_cons, ih, handle_event_flag, List.countP_cons]
    by_cases ht : is_toggle_event e = true
    · simp only [ht, if_true]
      cases s.area_is_fullscreen <;>
        by_cases hp : List.countP is_toggle_event es % 2 = 1 <;>
        simp [hp] <;> omega
    · simp only [ht, Bool.false_eq_true, if_false, add_zero]

/-- C13, as stated, fails in both directions: after F11 and a right click at
(500, 500) the flag is set while the rectangle is (0, 0, 500, 500), and after
a left click at (0, 0) and a right click at (1920, 1080) the rectangle is the
whole 1920 x 1080 monitor while the flag is not set. -/
theorem fullscreen_flag_is_not_full_bounds :
    ((run_events [Event.key_release GDK_KEY_F11 1920 1080,
          Event.button_press GDK_BUTTON_SECONDARY ((500 : Int) : Double) ((500 : Int) : Double)]
        (setup_widget_data_pointers ⟨0, 0, 0, 0⟩ ⟨0, 0, 0, 0⟩ ⟨0, 0, 1920, 1080⟩ [] (0, 0)
          "p")).area_is_fullscreen = true ∧
      (run_events [Event.key_release GDK_KEY_F11 1920 1080,
          Event.button_press GDK_BUTTON_SECONDARY ((500 : Int) : Double) ((500 : Int) : Double)]
        (setup_widget_data_pointers ⟨0, 0, 0, 0⟩ ⟨0, 0, 0, 0⟩ ⟨0, 0, 1920, 1080⟩ [] (0, 0)
          "p")).area_rect = ⟨0, 0, 500, 500⟩) ∧
    ((run_events [Event.button_press GDK_BUTTON_PRIMARY ((0 : Int) : Double) ((0 : Int) : Double),
          Event.button_press GDK_BUTTON_SECONDARY ((1920 : Int) : Double)
            ((1080 : Int) : Double)]
        (setup_widget_data_pointers ⟨0, 0, 0, 0⟩ ⟨0, 0, 0, 0⟩ ⟨0, 0, 1920, 1080⟩ [] (0, 0)
          "p")).area_is_fullscreen = false ∧
      (run_events [Event.button_press GDK_BUTTON_PRIMARY ((0 : Int) : Double) ((0 : Int) : Double),
          Event.button_press GDK_BUTTON_SECONDARY ((1920 : Int) : Double)
            ((1080 : Int) : Double)]
        (setup_widget_data_pointers ⟨0, 0, 0, 0⟩ ⟨0, 0, 0, 0⟩ ⟨0, 0, 1920, 1080⟩ [] (0, 0)
          "p")).area_rect = ⟨0, 0, 1920, 1080⟩) := by
  simp only [run_events, List.foldl, handle_event, key_event_cb, button_press_event_cb,
    toInt_intCast]
  decide

/-- C13, amended: in every state reached from a state with the flag unset
through the event callbacks, `area_is_fullscreen` is set exactly when
`toggle_fullscreen_area` has run an odd number of times, no other callback
touching it; and an F11 pressed while the flag is unset (no initialisation
pending, the widget allocated the monitor size) sets the flag and makes the
rectangle the full monitor bounds `(0, 0, monWidth, monHeight)`. -/
theorem fullscreen_flag_counts_toggles (events : List Event) (s : Session)
    (h0 : s.area_is_fullscreen = false) :
    ((run_events events s).area_is_fullscreen = true
      ↔ events.countP is_toggle_event % 2 = 1) ∧
    (∀ e, is_toggle_event e = false →
      (handle_event e (run_events events s)).area_is_fullscreen
        = (run_events events s).area_is_fullscreen) ∧
    ((run_events events s).area_is_fullscreen = false →
      (run_events events s).surface_became_fullscreen = false →
      (key_event_cb GDK_KEY_F11 (run_events events s).surface_rect.width
          (run_events events s).surface_rect.height
          (run_events events s)).area_is_fullscreen = true ∧
      (key_event_cb GDK_KEY_F11 (run_events events s).surface_rect.width
          (run_events events s).surface_rect.height (run_events events s)).area_rect
        = ⟨0, 0, (run_events events s).surface_rect.width,
            (run_events events s).surface_rect.height⟩) := by
  refine ⟨?_, ?_, ?_⟩
  · rw [run_events_flag, h0]
    simp
  · intro e he
    rw [handle_event_flag, he]
    simp
  · intro hf hinit
    constructor
    · simp only [key_event_cb, if_true]
      rw [toggle_fullscreen_area_flag, hf]
      rfl
    · simp only [key_event_cb, if_true]
      unfold toggle_fullscreen_area
      rw [if_pos (by simp [hf])]
      simp only [draw_rect]
      rw [draw_rect_init_of_flag_false]
      · exact draw_rect_clamp_of_fits _ _ _ (by simp) (by simp)
      · exact hinit

/-- Witness of `fullscreen_flag_counts_toggles`: F11 followed by a right
click, from the start-up data. -/
theorem fullscreen_flag_counts_toggles_witness :
    (run_events [Event.key_release GDK_KEY_F11 1920 1080,
        Event.button_press GDK_BUTTON_SECONDARY ((500 : Int) : Double) ((500 : Int) : Double)]
      (setup_widget_data_pointers ⟨0, 0, 0, 0⟩ ⟨0, 0, 0, 0⟩ ⟨0, 0, 1920, 1080⟩ [] (0, 0)
        "p")).area_is_fullscreen = true
    ↔ [Event.key_release GDK_KEY_F11 1920 1080,
        Event.button_press GDK_BUTTON_SECONDARY ((500 : Int) : Double)
          ((500 : Int) : Double)].countP is_toggle_event % 2 = 1 :=
  (fullscreen_flag_counts_toggles
    [Event.key_release GDK_KEY_F11 1920 1080,
      Event.button_press GDK_BUTTON_SECONDARY ((500 : Int) : Double) ((500 : Int) : Double)]
    (setup_widget_data_pointers ⟨0, 0, 0, 0⟩ ⟨0, 0, 0, 0⟩ ⟨0, 0, 1920, 1080⟩ [] (0, 0) "p")
    rfl).1

/-! ## Non-negative width and height -/

theorem draw_rect_clamp_size_nonneg (mw mh : Int) (r : GdkRectangle) (hmw : 0 ≤ mw)
    (hmh : 0 ≤ mh) (hw : 0 ≤ r.width) (hh : 0 ≤ r.height) :
    0 ≤ (draw_rect_clamp mw mh r).width ∧ 0 ≤ (draw_rect_clamp mw mh r).height := by
  obtain ⟨x, y, w, h⟩ := r
  simp only at hw hh
  simp only [draw_rect_clamp]
  split_ifs <;> simp only at * <;> omega

theorem search_down_lt_length (p : List Double) (wh : Double) (hN : 0 < p.length) :
    search_down p wh (p.length - 1) < p.length := by
  have := search_down_le p wh (p.length - 1)
  omega

theorem search_up_lt_length (p : List Double) (wh : Double) (hN : 0 < p.length) :
    search_up p wh (p.length - 1) 0 < p.length := by
  have := (search_up_bounds p wh (p.length - 1) 0).2
  omega

theorem getD_mem (p : List Double) (i : Nat) (hi : i < p.length) : p.getD i 0 ∈ p := by
  rw [List.getD_eq_getElem p 0 hi]
  exact List.getElem_mem hi

theorem scroll_size_mem (direction : GdkScrollDirection) (r : GdkRectangle) (p : List Double)
    (hN : 0 < p.length)
    (hd : direction = GdkScrollDirection.GDK_SCROLL_UP ∨
      direction = GdkScrollDirection.GDK_SCROLL_DOWN) :
    ∃ e ∈ p, (scroll_resize_to_preset direction r p).width = toInt (get_w e) ∧
      (scroll_resize_to_preset direction r p).height = toInt (get_h e) := by
  rcases hd with hd | hd
  · subst hd
    exact ⟨_, getD_mem p _ (search_down_lt_length p _ hN), (scroll_up_size r p).1,
      (scroll_up_size r p).2⟩
  · subst hd
    exact ⟨_, getD_mem p _ (search_up_lt_length p _ hN), (scroll_down_size r p).1,
      (scroll_down_size r p).2⟩

theorem drag_size_mem (right lower : Double) (r : GdkRectangle) (p : List Double)
    (hN : 0 < p.length) :
    ∃ e ∈ p, (drag_resize_to_preset right lower p r).width = toInt (get_w e) ∧
      (drag_resize_to_preset right lower p r).height = toInt (get_h e) :=
  ⟨_, getD_mem p _ (search_down_lt_length p _ hN), (drag_size right lower p r).1,
    (drag_size right lower p r).2.1⟩

theorem scroll_other_direction (direction : GdkScrollDirection) (r : GdkRectangle)
    (p : List Double) (h1 : direction ≠ GdkScrollDirection.GDK_SCROLL_UP)
    (h2 : direction ≠ GdkScrollDirection.GDK_SCROLL_DOWN) :
    scroll_resize_to_preset direction r p = r := by
  unfold scroll_resize_to_preset
  rw [if_neg (by simp [h1, h2])]

/-- C14: with non-negative monitor and allocation sizes and presets of
non-negative width and height, each of `position_rect`, `resize_rect`,
`drag_resize_to_preset`, `scroll_resize_to_preset`, the clamp step of
`draw_rect` and `toggle_fullscreen_area` takes a rectangle of non-negative
width and height to one of non-negative width and height; the rectangle
`toggle_fullscreen_area` saves and restores is part of the invariant. -/
theorem size_nonneg_invariant (s : Session) (presets : List Double) (x y right lower : Int)
    (dright dlower : Double) (direction : GdkScrollDirection) (aw ah : Int)
    (hmon : 0 ≤ s.surface_rect.width ∧ 0 ≤ s.surface_rect.height)
    (halloc : 0 ≤ aw ∧ 0 ≤ ah)
    (hne : 0 < presets.length)
    (hp : ∀ e ∈ presets, 0 ≤ toInt (get_w e) ∧ 0 ≤ toInt (get_h e))
    (hr : 0 ≤ s.area_rect.width ∧ 0 ≤ s.area_rect.height)
    (hsaved : s.area_is_fullscreen = true → 0 ≤ s.prev_w ∧ 0 ≤ s.prev_h)
    (hinit : s.surface_became_fullscreen = false) :
    (0 ≤ (position_rect x y s.area_rect).width ∧
      0 ≤ (position_rect x y s.area_rect).height) ∧
    (0 ≤ (resize_rect right lower s.area_rect).width ∧
      0 ≤ (resize_rect right lower s.area_rect).height) ∧
    (0 ≤ (drag_resize_to_preset dright dlower presets s.area_rect).width ∧
      0 ≤ (drag_resize_to_preset dright dlower presets s.area_rect).height) ∧
    (0 ≤ (scroll_resize_to_preset direction s.area_rect presets).width ∧
      0 ≤ (scroll_resize_to_preset direction s.area_rect presets).height) ∧
    (0 ≤ (draw_rect_clamp s.surface_rect.width s.surface_rect.height s.area_rect).width ∧
      0 ≤ (draw_rect_clamp s.surface_rect.width s.surface_rect.height s.area_rect).height) ∧
    (0 ≤ (toggle_fullscreen_area aw ah s).1.area_rect.width ∧
      0 ≤ (toggle_fullscreen_area aw ah s).1.area_rect.height) ∧
    ((toggle_fullscreen_area aw ah s).1.area_is_fullscreen = true →
      0 ≤ (toggle_fullscreen_area aw ah s).1.prev_w ∧
      0 ≤ (toggle_fullscreen_area aw ah s).1.prev_h) := by
  refine ⟨hr, ?_, ?_, ?_, ?_, ?_, ?_⟩
  · obtain ⟨rx, ry, rw, rh⟩ := s.area_rect
    simp only [resize_rect]
    split_ifs <;> simp only at * <;> omega
  · obtain ⟨e, he, h1, h2⟩ := drag_size_mem dright dlower s.area_rect presets hne
    rw [h1, h2]
    exact hp e he
  · by_cases hd : direction = GdkScrollDirection.GDK_SCROLL_UP ∨
        direction = GdkScrollDirection.GDK_SCROLL_DOWN
    · obtain ⟨e, he, h1, h2⟩ := scroll_size_mem direction s.area_rect presets hne hd
      rw [h1, h2]
      exact hp e he
    · rw [scroll_other_direction direction s.area_rect presets (fun h => hd (Or.inl h))
        (fun h => hd (Or.inr h))]
      exact hr
  · exact draw_rect_clamp_size_nonneg _ _ _ hmon.1 hmon.2 hr.1 hr.2
  · by_cases hf : s.area_is_fullscreen = true
    · rw [toggle_fullscreen_area_leave aw ah s hf hinit]
      exact draw_rect_clamp_size_nonneg _ _ _ hmon.1 hmon.2 (hsaved hf).1 (hsaved hf).2
    · simp only [Bool.not_eq_true] at hf
      unfold toggle_fullscreen_area
      rw [if_pos (by simp [hf])]
      simp only [draw_rect]
      rw [draw_rect_init_of_flag_false]
      · exact draw_rect_clamp_size_nonneg _ _ _ hmon.1 hmon.2 halloc.1 halloc.2
      · exact hinit
  · intro hflag
    by_cases hf : s.area_is_fullscreen = true
    · rw [toggle_fullscreen_area_flag, hf] at hflag
      exact absurd hflag (by decide)
    · simp only [Bool.not_eq_true] at hf
      obtain ⟨_, _, _, e4, e5, _, _⟩ := toggle_fullscreen_area_enter aw ah s hf
      rw [e4, e5]
      exact hr

/-- Witness of `size_nonneg_invariant`: the start-up data on a 1920 x 1080
surface with the single preset 160 x 90. -/
theorem size_nonneg_invariant_witness :
    0 ≤ (toggle_fullscreen_area 1920 1080
      (setup_widget_data_pointers ⟨0, 0, 0, 0⟩ ⟨0, 0, 0, 0⟩ ⟨0, 0, 1920, 1080⟩
        [metric 160 90] (0, 0) "p")).1.area_rect.width :=
  (size_nonneg_invariant
    (setup_widget_data_pointers ⟨0, 0, 0, 0⟩ ⟨0, 0, 0, 0⟩ ⟨0, 0, 1920, 1080⟩
      [metric 160 90] (0, 0) "p")
    [metric 160 90] 10 10 300 300 300 300 GdkScrollDirection.GDK_SCROLL_UP 1920 1080
    (by decide) (by decide) (Nat.succ_pos _)
    (by
      intro e he
      rw [List.mem_singleton] at he
      rw [he, get_w_metric 160 90 (by decide) (by decide) (by decide),
        get_h_metric 160 90 (by decide) (by decide) (by decide)]
      decide)
    (by decide) (by intro h; exact absurd h (by decide)) rfl).2.2.2.2.2.1.1

/-! ## Termination and bounds of the search loops -/

theorem loop_down_eq (p : List Double) (wh : Double) (i fuel : Nat) (h : i < fuel) :
    loop_down p wh fuel i = some (search_down p wh i) := by
  induction i generalizing fuel with
  | zero =>
    obtain ⟨f, rfl⟩ : ∃ f, fuel = f + 1 := ⟨fuel - 1, by omega⟩
    simp [loop_down, search_down]
  | succ i ih =>
    obtain ⟨f, rfl⟩ : ∃ f, fuel = f + 1 := ⟨fuel - 1, by omega⟩
    unfold loop_down search_down
    by_cases hc : p.getD (i + 1) 0 < wh
    · simp only [hc, decide_True, Bool.not_true, Bool.and_false, Bool.false_eq_true, if_false]
    · simp only [hc, decide_False, Bool.not_false, Bool.and_true, gt_iff_lt,
        Nat.zero_lt_succ, decide_True, if_true, Nat.add_sub_cancel]
      exact ih f (by omega)

theorem loop_up_eq (p : List Double) (wh : Double) (n i fuel : Nat)
    (hi : i + n = p.length - 1) (h : n < fuel) :
    loop_up p wh fuel i = some (search_up p wh n i) := by
  induction n generalizing i fuel with
  | zero =>
    obtain ⟨f, rfl⟩ : ∃ f, fuel = f + 1 := ⟨fuel - 1, by omega⟩
    have hlt : ¬ i < p.length - 1 := by omega
    simp [loop_up, search_up, hlt]
  | succ n ih =>
    obtain ⟨f, rfl⟩ : ∃ f, fuel = f + 1 := ⟨fuel - 1, by omega⟩
    have hlt : i < p.length - 1 := by omega
    unfold loop_up search_up
    by_cases hc : p.getD i 0 > wh
    · simp only [hc, decide_True, Bool.not_true, Bool.and_false, Bool.false_eq_true, if_false]
    · simp only [hlt, decide_True, hc, decide_False, Bool.not_false, Bool.and_self, if_true]
      exact ih (i + 1) f (by omega) (by omega)

/-- C18: on a table of `N ≥ 1` presets the search loops of
`drag_resize_to_preset` and `scroll_resize_to_preset` end after at most `N`
tests of their condition, with an index `i ≤ N - 1`, so that `presets[i]` is
an entry of the table and the new width and height are those of a table
entry. -/
theorem search_loops_end_in_bounds (presets : List Double) (r : GdkRectangle)
    (right lower : Double) (fuel : Nat) (hN : 0 < presets.length)
    (hfuel : presets.length ≤ fuel) :
    (loop_down presets (drag_widthheight right lower r) fuel (presets.length - 1)
        = some (search_down presets (drag_widthheight right lower r) (presets.length - 1)) ∧
      search_down presets (drag_widthheight right lower r) (presets.length - 1)
        ≤ presets.length - 1) ∧
    (loop_down presets (scroll_widthheight r) fuel (presets.length - 1)
        = some (search_down presets (scroll_widthheight r) (presets.length - 1)) ∧
      search_down presets (scroll_widthheight r) (presets.length - 1)
        ≤ presets.length - 1) ∧
    (loop_up presets (scroll_widthheight r) fuel 0
        = some (search_up presets (scroll_widthheight r) (presets.length - 1) 0) ∧
      search_up presets (scroll_widthheight r) (presets.length - 1) 0
        ≤ presets.length - 1) ∧
    (scroll_index GdkScrollDirection.GDK_SCROLL_UP r presets < presets.length ∧
      scroll_index GdkScrollDirection.GDK_SCROLL_DOWN r presets < presets.length) ∧
    (∃ e ∈ presets, (drag_resize_to_preset right lower presets r).width = toInt (get_w e) ∧
      (drag_resize_to_preset right lower presets r).height = toInt (get_h e)) ∧
    (∃ e ∈ presets,
      (scroll_resize_to_preset GdkScrollDirection.GDK_SCROLL_UP r presets).width
        = toInt (get_w e) ∧
      (scroll_resize_to_preset GdkScrollDirection.GDK_SCROLL_UP r presets).height
        = toInt (get_h e)) ∧
    (∃ e ∈ presets,
      (scroll_resize_to_preset GdkScrollDirection.GDK_SCROLL_DOWN r presets).width
        = toInt (get_w e) ∧
      (scroll_resize_to_preset GdkScrollDirection.GDK_SCROLL_DOWN r presets).height
        = toInt (get_h e)) := by
  refine ⟨⟨loop_down_eq _ _ _ _ (by omega), search_down_le _ _ _⟩,
    ⟨loop_down_eq _ _ _ _ (by omega), search_down_le _ _ _⟩,
    ⟨loop_up_eq _ _ _ _ _ (by omega) (by omega), ?_⟩, ⟨?_, ?_⟩,
    drag_size_mem right lower r presets hN,
    scroll_size_mem _ r presets hN (Or.inl rfl),
    scroll_size_mem _ r presets hN (Or.inr rfl)⟩
  · have := (search_up_bounds presets (scroll_widthheight r) (presets.length - 1) 0).2
    omega
  · simp only [scroll_index, if_true]
    exact search_down_lt_length presets _ hN
  · have hne : GdkScrollDirection.GDK_SCROLL_DOWN ≠ GdkScrollDirection.GDK_SCROLL_UP := by
      decide
    simp only [scroll_index, hne, if_false, if_true]
    exact search_up_lt_length presets _ hN

/-- Witness of `search_loops_end_in_bounds`: a table of three entries and
three tests of the loop condition. -/
theorem search_loops_end_in_bounds_witness :
    loop_up [1, 2, 3] (scroll_widthheight ⟨130, 130, 260, 260⟩) 3 0
      = some (search_up [1, 2, 3] (scroll_widthheight ⟨130, 130, 260, 260⟩)
          ([(1 : Double), 2, 3].length - 1) 0) :=
  (search_loops_end_in_bounds [1, 2, 3] ⟨130, 130, 260, 260⟩ 300 300 3
    (Nat.succ_pos _) (Nat.le_refl _)).2.2.1.1

/-! ## Scrolling back and forth -/

theorem scroll_widthheight_eq (r : GdkRectangle) :
    scroll_widthheight r = metric r.width r.height := rfl

theorem lt_of_getD_lt_getD (p : List Double) (hs : p.Pairwise (fun a b => a < b))
    (i j : Nat) (hi : i < p.length) (h : p.getD i 0 < p.getD j 0) : i < j := by
  by_contra hc
  rcases Nat.eq_or_lt_of_le (Nat.le_of_not_lt hc) with e | e
  · rw [e] at h; exact lt_irrefl _ h
  · exact lt_asymm h (getD_lt_getD_of_pairwise p hs j i e hi)

theorem getD_le_getD_of_le (p : List Double) (hs : p.Pairwise (fun a b => a < b))
    (i j : Nat) (hij : i ≤ j) (hj : j < p.length) : p.getD i 0 ≤ p.getD j 0 := by
  rcases Nat.eq_or_lt_of_le hij with e | e
  · rw [e]
  · exact le_of_lt (getD_lt_getD_of_pairwise p hs i j e hj)

/-- Scroll-down from the metric of entry `k` takes entry `k + 1`. -/
theorem scroll_down_from_entry (p : List Double) (hs : p.Pairwise (fun a b => a < b))
    (k : Nat) (hk : k + 1 < p.length) (r : GdkRectangle)
    (hr : scroll_widthheight r = p.getD k 0) :
    (scroll_resize_to_preset GdkScrollDirection.GDK_SCROLL_DOWN r p).width
      = toInt (get_w (p.getD (k + 1) 0)) ∧
    (scroll_resize_to_preset GdkScrollDirection.GDK_SCROLL_DOWN r p).height
      = toInt (get_h (p.getD (k + 1) 0)) := by
  obtain ⟨d1, d2⟩ := scroll_down_size r p
  have hidx : search_up p (scroll_widthheight r) (p.length - 1) 0 = k + 1 := by
    apply search_up_eq p hs _ (k + 1) hk
    · rw [hr]; exact getD_lt_getD_of_pairwise p hs k (k + 1) (Nat.lt_succ_self k) hk
    · intro j hj hlt
      rw [hr] at hlt
      have hkj := lt_of_getD_lt_getD p hs k j (by omega) hlt
      exact getD_le_getD_of_le p hs (k + 1) j hkj hj
  rw [hidx] at d1 d2
  exact ⟨d1, d2⟩

/-- Scroll-up from the metric of entry `k + 1` takes entry `k`. -/
theorem scroll_up_from_entry (p : List Double) (hs : p.Pairwise (fun a b => a < b))
    (k : Nat) (hk : k + 1 < p.length) (r : GdkRectangle)
    (hr : scroll_widthheight r = p.getD (k + 1) 0) :
    (scroll_resize_to_preset GdkScrollDirection.GDK_SCROLL_UP r p).width
      = toInt (get_w (p.getD k 0)) ∧
    (scroll_resize_to_preset GdkScrollDirection.GDK_SCROLL_UP r p).height
      = toInt (get_h (p.getD k 0)) := by
  obtain ⟨u1, u2⟩ := scroll_up_size r p
  have hidx : search_down p (scroll_widthheight r) (p.length - 1) = k := by
    apply search_down_eq p hs _ k (by omega)
    · rw [hr]; exact getD_lt_getD_of_pairwise p hs k (k + 1) (Nat.lt_succ_self k) hk
    · intro j hj hlt
      rw [hr] at hlt
      have hjk := lt_of_getD_lt_getD p hs j (k + 1) hj hlt
      exact getD_le_getD_of_le p hs j k (by omega) (by omega)
  rw [hidx] at u1 u2
  exact ⟨u1, u2⟩

theorem getD_map_metric (sizes : List (Int × Int)) (k : Nat) (hk : k < sizes.length) :
    (sizes.map (fun s => metric s.1 s.2)).getD k 0
      = metric (sizes.getD k (0, 0)).1 (sizes.getD k (0, 0)).2 := by
  rw [List.getD_eq_getElem _ _ (by simpa using hk), List.getD_eq_getElem _ _ hk,
    List.getElem_map]

theorem getD_mem_sizes (sizes : List (Int × Int)) (k : Nat) (hk : k < sizes.length) :
    sizes.getD k (0, 0) ∈ sizes := by
  rw [List.getD_eq_getElem _ _ hk]
  exact List.getElem_mem hk

/-- The size decoded from the encoding of entry `k` of a table of sizes. -/
theorem decode_entry (sizes : List (Int × Int))
    (hrange : ∀ s ∈ sizes, |s.1| ≤ 2 ^ 31 ∧ 0 ≤ s.2 ∧ s.2 < 100000)
    (k : Nat) (hk : k < sizes.length) :
    toInt (get_w ((sizes.map (fun s => metric s.1 s.2)).getD k 0)) = (sizes.getD k (0, 0)).1 ∧
    toInt (get_h ((sizes.map (fun s => metric s.1 s.2)).getD k 0))
      = (sizes.getD k (0, 0)).2 := by
  obtain ⟨h1, h2, h3⟩ := hrange _ (getD_mem_sizes sizes k hk)
  rw [getD_map_metric sizes k hk]
  exact ⟨get_w_metric _ _ h1 h2 h3, get_h_metric _ _ h1 h2 h3⟩

theorem metric_one_hundred_thousand : metric 1 100000 = ((2 : ℤ) : ℚ) := by
  have f1 : fl (1 : ℚ) = 1 := by
    have := fl_natCast_small 1 (by norm_num); simpa using this
  have f2 : fl (2 : ℚ) = 2 := by
    have := fl_natCast_small 2 (by norm_num); simpa using this
  have f3 : fl (100000 : ℚ) = 100000 := by
    have := fl_natCast_small 100000 (by norm_num); simpa using this
  have e : (100000 : ℚ) / 100000 = 1 := by norm_num
  have e2 : (1 : ℚ) + 1 = 2 := by norm_num
  simp only [metric, dadd, ddiv, ofInt, Int.cast_one, Int.cast_ofNat, f1, f3, e, e2, f2]

theorem get_w_intCast (n : ℤ) : toInt (get_w ((n : ℤ) : ℚ)) = n := by
  unfold get_w toInt
  rw [Int.floor_intCast, truncZ_intCast]

theorem get_h_intCast (n : ℤ) : toInt (get_h ((n : ℤ) : ℚ)) = 0 := by
  unfold get_h dmul
  rw [Int.floor_intCast, sub_self, mul_zero, fl_zero]
  exact toInt_rint_intCast 0

/-- Scrolling on a table of two presets. -/
theorem scroll_two (a b : Double) (hab : a < b) (r : GdkRectangle) :
    (scroll_widthheight r = a →
      (scroll_resize_to_preset GdkScrollDirection.GDK_SCROLL_DOWN r [a, b]).width
        = toInt (get_w b) ∧
      (scroll_resize_to_preset GdkScrollDirection.GDK_SCROLL_DOWN r [a, b]).height
        = toInt (get_h b)) ∧
    (scroll_widthheight r = b →
      (scroll_resize_to_preset GdkScrollDirection.GDK_SCROLL_UP r [a, b]).width
        = toInt (get_w a) ∧
      (scroll_resize_to_preset GdkScrollDirection.GDK_SCROLL_UP r [a, b]).height
        = toInt (get_h a)) := by
  have hs : [a, b].Pairwise (fun a b => a < b) := by simp [hab]
  constructor
  · intro hr
    exact scroll_down_from_entry [a, b] hs 0 (by simp) r hr
  · intro hr
    exact scroll_up_from_entry [a, b] hs 0 (by simp) r hr

/-- C19, as stated, fails for a preset whose height is not below 100000: with
the presets 1 x 100000 and 3 x 0 (metrics 2 and 3) and a rectangle of the
size 1 x 100000, scroll-down gives 3 x 0 and the following scroll-up gives
2 x 0, not 1 x 100000. -/
theorem scroll_round_trip_fails_for_large_height :
    [metric 1 100000, metric 3 0].Pairwise (fun a b => a < b) ∧
    (scroll_resize_to_preset GdkScrollDirection.GDK_SCROLL_DOWN ⟨0, 0, 1, 100000⟩
      [metric 1 100000, metric 3 0]).width = 3 ∧
    (scroll_resize_to_preset GdkScrollDirection.GDK_SCROLL_DOWN ⟨0, 0, 1, 100000⟩
      [metric 1 100000, metric 3 0]).height = 0 ∧
    (scroll_resize_to_preset GdkScrollDirection.GDK_SCROLL_UP
      (scroll_resize_to_preset GdkScrollDirection.GDK_SCROLL_DOWN ⟨0, 0, 1, 100000⟩
        [metric 1 100000, metric 3 0])
      [metric 1 100000, metric 3 0]).width = 2 ∧
    (scroll_resize_to_preset GdkScrollDirection.GDK_SCROLL_UP
      (scroll_resize_to_preset GdkScrollDirection.GDK_SCROLL_DOWN ⟨0, 0, 1, 100000⟩
        [metric 1 100000, metric 3 0])
      [metric 1 100000, metric 3 0]).height = 0 := by
  have h3 : metric 3 0 = ((3 : ℤ) : ℚ) := metric_zero 3 (by decide)
  have hab : metric 1 100000 < metric 3 0 := by
    rw [metric_one_hundred_thousand, h3]; norm_num
  have hd := (scroll_two (metric 1 100000) (metric 3 0) hab ⟨0, 0, 1, 100000⟩).1
    (scroll_widthheight_mk 0 0 1 100000)
  rw [get_w_metric 3 0 (by decide) (by decide) (by decide),
    get_h_metric 3 0 (by decide) (by decide) (by decide)] at hd
  have hu := (scroll_two (metric 1 100000) (metric 3 0) hab
    (scroll_resize_to_preset GdkScrollDirection.GDK_SCROLL_DOWN ⟨0, 0, 1, 100000⟩
      [metric 1 100000, metric 3 0])).2
    (by rw [scroll_widthheight_eq, hd.1, hd.2])
  rw [metric_one_hundred_thousand, get_w_intCast, get_h_intCast] at hu
  rw [← metric_one_hundred_thousand] at hu
  refine ⟨?_, hd.1, hd.2, hu.1, hu.2⟩
  simp [hab]

/-- C19, amended: for a table of sizes with heights in `[0, 100000)` (widths
within the range of `int`), strictly increasing in the metric, and a
rectangle whose size is preset `k`: if `k < N - 1`, scroll-down gives preset
`k + 1` and the following scroll-up gives preset `k` again; if `k > 0`,
scroll-up gives preset `k - 1` and the following scroll-down preset `k`
again. -/
theorem scroll_round_trip (sizes : List (Int × Int)) (k : Nat) (r : GdkRectangle)
    (hs : (sizes.map (fun s => metric s.1 s.2)).Pairwise (fun a b => a < b))
    (hrange : ∀ s ∈ sizes, |s.1| ≤ 2 ^ 31 ∧ 0 ≤ s.2 ∧ s.2 < 100000)
    (hk : k < sizes.length)
    (hr : r.width = (sizes.getD k (0, 0)).1 ∧ r.height = (sizes.getD k (0, 0)).2) :
    (k + 1 < sizes.length →
      ((scroll_resize_to_preset GdkScrollDirection.GDK_SCROLL_DOWN r
          (sizes.map (fun s => metric s.1 s.2))).width = (sizes.getD (k + 1) (0, 0)).1 ∧
        (scroll_resize_to_preset GdkScrollDirection.GDK_SCROLL_DOWN r
          (sizes.map (fun s => metric s.1 s.2))).height = (sizes.getD (k + 1) (0, 0)).2) ∧
      ((scroll_resize_to_preset GdkScrollDirection.GDK_SCROLL_UP
          (scroll_resize_to_preset GdkScrollDirection.GDK_SCROLL_DOWN r
            (sizes.map (fun s => metric s.1 s.2)))
          (sizes.map (fun s => metric s.1 s.2))).width = r.width ∧
        (scroll_resize_to_preset GdkScrollDirection.GDK_SCROLL_UP
          (scroll_resize_to_preset GdkScrollDirection.GDK_SCROLL_DOWN r
            (sizes.map (fun s => metric s.1 s.2)))
          (sizes.map (fun s => metric s.1 s.2))).height = r.height)) ∧
    (0 < k →
      ((scroll_resize_to_preset GdkScrollDirection.GDK_SCROLL_UP r
          (sizes.map (fun s => metric s.1 s.2))).width = (sizes.getD (k - 1) (0, 0)).1 ∧
        (scroll_resize_to_preset GdkScrollDirection.GDK_SCROLL_UP r
          (sizes.map (fun s => metric s.1 s.2))).height = (sizes.getD (k - 1) (0, 0)).2) ∧
      ((scroll_resize_to_preset GdkScrollDirection.GDK_SCROLL_DOWN
          (scroll_resize_to_preset GdkScrollDirection.GDK_SCROLL_UP r
            (sizes.map (fun s => metric s.1 s.2)))
          (sizes.map (fun s => metric s.1 s.2))).width = r.width ∧
        (scroll_resize_to_preset GdkScrollDirection.GDK_SCROLL_DOWN
          (scroll_resize_to_preset GdkScrollDirection.GDK_SCROLL_UP r
            (sizes.map (fun s => metric s.1 s.2)))
          (sizes.map (fun s => metric s.1 s.2))).height = r.height)) := by
  have hlen : (sizes.map (fun s => metric s.1 s.2)).length = sizes.length := List.length_map _ _
  have hwh : ∀ (t : GdkRectangle) (j : Nat), j < sizes.length →
      t.width = (sizes.getD j (0, 0)).1 → t.height = (sizes.getD j (0, 0)).2 →
      scroll_widthheight t = (sizes.map (fun s => metric s.1 s.2)).getD j 0 := by
    intro t j hj h1 h2
    rw [scroll_widthheight_eq, getD_map_metric sizes j hj, h1, h2]
  constructor
  · intro hk1
    have hd := scroll_down_from_entry _ hs k (by rw [hlen]; exact hk1) r
      (hwh r k hk hr.1 hr.2)
    obtain ⟨w1, h1⟩ := decode_entry sizes hrange (k + 1) hk1
    rw [w1, h1] at hd
    have hu := scroll_up_from_entry _ hs k (by rw [hlen]; exact hk1) _
      (hwh _ (k + 1) hk1 hd.1 hd.2)
    obtain ⟨w0, h0⟩ := decode_entry sizes hrange k hk
    rw [w0, h0, ← hr.1, ← hr.2] at hu
    exact ⟨hd, hu⟩
  · intro hpos
    obtain ⟨m, rfl⟩ : ∃ m, k = m + 1 := ⟨k - 1, by omega⟩
    rw [Nat.add_sub_cancel]
    have hu := scroll_up_from_entry _ hs m (by rw [hlen]; exact hk) r
      (hwh r (m + 1) hk hr.1 hr.2)
    obtain ⟨w0, h0⟩ := decode_entry sizes hrange m (by omega)
    rw [w0, h0] at hu
    have hd := scroll_down_from_entry _ hs m (by rw [hlen]; exact hk) _
      (hwh _ m (by omega) hu.1 hu.2)
    obtain ⟨w1, h1⟩ := decode_entry sizes hrange (m + 1) hk
    rw [w1, h1, ← hr.1, ← hr.2] at hd
    exact ⟨hu, hd⟩

theorem three_sizes_getD (a b c : Int × Int) :
    [a, b, c].getD 0 (0, 0) = a ∧ [a, b, c].getD 1 (0, 0) = b ∧ [a, b, c].getD 2 (0, 0) = c :=
  ⟨rfl, rfl, rfl⟩

theorem three_sizes_map (a b c : Int × Int) :
    [a, b, c].map (fun s => metric s.1 s.2) = [metric a.1 a.2, metric b.1 b.2, metric c.1 c.2] :=
  rfl

/-- Witness of `scroll_round_trip`: the sizes 160 x 90, 320 x 180 and
640 x 360 and a rectangle of the middle size. -/
theorem scroll_round_trip_witness :
    (scroll_resize_to_preset GdkScrollDirection.GDK_SCROLL_UP
        (scroll_resize_to_preset GdkScrollDirection.GDK_SCROLL_DOWN ⟨130, 130, 320, 180⟩
          ([(160, 90), (320, 180), (640, 360)].map (fun s => metric s.1 s.2)))
        ([(160, 90), (320, 180), (640, 360)].map (fun s => metric s.1 s.2))).width
      = (⟨130, 130, 320, 180⟩ : GdkRectangle).width :=
  ((scroll_round_trip [(160, 90), (320, 180), (640, 360)] 1 ⟨130, 130, 320, 180⟩
    (by rw [three_sizes_map]; exact three_presets_pairwise)
    (by
      intro s hs
      simp only [List.mem_cons, List.mem_singleton, List.not_mem_nil, or_false] at hs
      rcases hs with rfl | rfl | rfl <;> decide)
    (by decide)
    (by rw [(three_sizes_getD _ _ _).2.1]; exact ⟨rfl, rfl⟩)).1 (by decide)).2.1

/-! ## The text of `write_previous` -/

theorem digit_char_ne_newline (d : Nat) : digit_char d ≠ newline := by
  unfold digit_char newline
  have h : d % 10 < 10 := Nat.mod_lt _ (by decide)
  generalize d % 10 = k at h
  interval_cases k <;> decide

theorem newline_not_mem_decimal_digits (n : Nat) : newline ∉ decimal_digits n := by
  unfold decimal_digits
  split_ifs
  · simp only [List.mem_singleton]
    unfold newline
    decide
  · intro h
    rw [List.mem_map] at h
    obtain ⟨d, _, hd⟩ := h
    exact digit_char_ne_newline d hd

theorem newline_not_mem_printf_f (d : Double) : newline ∉ printf_f d := by
  have hminus : newline ≠ '-' := by unfold newline; decide
  have hpoint : newline ≠ '.' := by unfold newline; decide
  have hdig : ∀ k, newline ≠ digit_char k := fun k h => digit_char_ne_newline k h.symm
  unfold printf_f
  simp only [List.mem_append, List.mem_cons, List.mem_singleton, List.not_mem_nil, or_false,
    not_or]
  refine ⟨⟨⟨?_, newline_not_mem_decimal_digits _⟩, hpoint⟩, hdig _, hdig _, hdig _, hdig _,
    hdig _, hdig _⟩
  split_ifs
  · simp only [List.mem_singleton]; exact hminus
  · exact List.not_mem_nil _

theorem printf_f_length (d : Double) : 7 ≤ (printf_f d).length := by
  unfold printf_f
  simp only [List.length_append, List.length_cons, List.length_nil]
  omega

theorem newline_not_mem_snprintf_f (size : Nat) (d : Double) :
    newline ∉ snprintf_f size d := fun h =>
  newline_not_mem_printf_f d (List.mem_of_mem_take h)

theorem snprintf_f_ne_nil (d : Double) : snprintf_f 11 d ≠ [] := by
  intro h
  have hl : (snprintf_f 11 d).length = 0 := by rw [h]; rfl
  unfold snprintf_f at hl
  rw [List.length_take] at hl
  have := printf_f_length d
  omega

theorem snprintf_f_length_le (d : Double) : (snprintf_f 11 d).length ≤ 10 := by
  unfold snprintf_f
  rw [List.length_take]
  omega

/-- The text a chain of `strcat` calls builds from a first line and the
remaining ones. -/
theorem foldl_lines (f : Double → List Char) (rest : List Double) (acc : List Char) :
    rest.foldl (fun contents p => contents ++ [newline] ++ f p) acc
      = acc ++ (rest.map (fun p => newline :: f p)).flatten := by
  induction rest generalizing acc with
  | nil => simp
  | cons p ps ih =>
    rw [List.foldl_cons, ih]
    simp [List.append_assoc]

theorem intercalate_cons (x : Char) (a : List Char) (ls : List (List Char)) :
    [x].intercalate (a :: ls) = a ++ (ls.map (fun l => x :: l)).flatten := by
  induction ls generalizing a with
  | nil => simp [List.intercalate]
  | cons b bs ih =>
    have h := ih b
    simp only [List.intercalate, List.intersperse, List.flatten_cons, List.map_cons,
      List.singleton_append] at h ⊢
    rw [h]
    simp

theorem write_previous_contents_eq (presets : List Double) (previous : GdkRectangle) :
    write_previous_contents presets previous
      = [newline].intercalate ((write_previous_pre presets previous).map (snprintf_f 11)) := by
  unfold write_previous_contents
  cases hpre : write_previous_pre presets previous with
  | nil => simp [List.intercalate]
  | cons p0 rest =>
    simp only [List.map_cons]
    rw [foldl_lines, intercalate_cons, List.map_map]
    rfl

theorem count_newline_lines (ls : List (List Char)) (h : ∀ l ∈ ls, newline ∉ l) :
    ((ls.map (fun l => newline :: l)).flatten).count newline = ls.length := by
  induction ls with
  | nil => simp
  | cons a as ih =>
    have ha : a.count newline = 0 := List.count_eq_zero.mpr (h a (List.mem_cons_self _ _))
    have ih' := ih (fun l hl => h l (List.mem_cons_of_mem _ hl))
    simp only [List.map_cons, List.flatten_cons, List.count_append, List.count_cons_self,
      List.length_cons, ha, ih']
    omega

theorem length_lines_le (ls : List (List Char)) (h : ∀ l ∈ ls, l.length ≤ 10) :
    ((ls.map (fun l => newline :: l)).flatten).length ≤ 11 * ls.length := by
  induction ls with
  | nil => simp
  | cons a as ih =>
    have ha := h a (List.mem_cons_self _ _)
    have ih' := ih (fun l hl => h l (List.mem_cons_of_mem _ hl))
    simp only [List.map_cons, List.flatten_cons, List.length_append, List.length_cons]
    omega

/-- C12: the text `write_previous` builds for a table of `N` presets and the
final rectangle consists of `N + 2` lines, none of them empty, separated by
`N + 1` line feeds: the `N` preset metrics in table order, then
`x + y/100000`, then `width + height/100000`, each as `snprintf` with the
conversion `%f` writes it into the 11 bytes of `char_preset`; the text and
its terminating zero fit the `(N + 2) * 12` bytes of `contents`. -/
theorem write_previous_lines (presets : List Double) (previous : GdkRectangle) :
    List.splitOn newline (write_previous_contents presets previous)
      = presets.map (snprintf_f 11) ++
          [snprintf_f 11 (metric previous.x previous.y),
           snprintf_f 11 (metric previous.width previous.height)] ∧
    (List.splitOn newline (write_previous_contents presets previous)).length
      = presets.length + 2 ∧
    (write_previous_contents presets previous).count newline = presets.length + 1 ∧
    (∀ l ∈ List.splitOn newline (write_previous_contents presets previous), l ≠ []) ∧
    (write_previous_contents presets previous).length + 1 ≤ (presets.length + 2) * 12 := by
  have hpre : (write_previous_pre presets previous).map (snprintf_f 11)
      = presets.map (snprintf_f 11) ++
          [snprintf_f 11 (metric previous.x previous.y),
           snprintf_f 11 (metric previous.width previous.height)] := by
    simp [write_previous_pre, write_previous_pair]
  have hnl : ∀ l ∈ (write_previous_pre presets previous).map (snprintf_f 11), newline ∉ l := by
    intro l hl
    rw [List.mem_map] at hl
    obtain ⟨d, _, rfl⟩ := hl
    exact newline_not_mem_snprintf_f 11 d
  have hne : (write_previous_pre presets previous).map (snprintf_f 11) ≠ [] := by
    rw [hpre]; simp
  have hsplit : List.splitOn newline (write_previous_contents presets previous)
      = (write_previous_pre presets previous).map (snprintf_f 11) := by
    rw [write_previous_contents_eq]
    exact List.splitOn_intercalate _ newline hnl hne
  have hlen : (write_previous_pre presets previous).length = presets.length + 2 := by
    simp [write_previous_pre]
  refine ⟨by rw [hsplit, hpre], by rw [hsplit, List.length_map, hlen], ?_, ?_, ?_⟩
  · unfold write_previous_contents
    cases hp : write_previous_pre presets previous with
    | nil => rw [hp] at hlen; simp at hlen
    | cons p0 rest =>
      rw [hp] at hlen
      simp only [List.length_cons] at hlen
      simp only
      rw [foldl_lines, List.count_append,
        List.count_eq_zero.mpr (newline_not_mem_snprintf_f 11 p0)]
      have := count_newline_lines (rest.map (snprintf_f 11)) (by
        intro l hl
        rw [List.mem_map] at hl
        obtain ⟨d, _, rfl⟩ := hl
        exact newline_not_mem_snprintf_f 11 d)
      rw [List.map_map] at this
      rw [List.length_map] at this
      have e : (fun l => newline :: l) ∘ snprintf_f 11 = fun p => newline :: snprintf_f 11 p :=
        rfl
      rw [e] at this
      rw [this]
      omega
  · intro l hl
    rw [hsplit, List.mem_map] at hl
    obtain ⟨d, _, rfl⟩ := hl
    exact snprintf_f_ne_nil d
  · unfold write_previous_contents
    cases hp : write_previous_pre presets previous with
    | nil => rw [hp] at hlen; simp at hlen
    | cons p0 rest =>
      rw [hp] at hlen
      simp only [List.length_cons] at hlen
      simp only
      rw [foldl_lines, List.length_append]
      have h0 := snprintf_f_length_le p0
      have := length_lines_le (rest.map (snprintf_f 11)) (by
        intro l hl
        rw [List.mem_map] at hl
        obtain ⟨d, _, rfl⟩ := hl
        exact snprintf_f_length_le d)
      rw [List.map_map, List.length_map] at this
      have e : (fun l => newline :: l) ∘ snprintf_f 11 = fun p => newline :: snprintf_f 11 p :=
        rfl
      rw [e] at this
      omega

/-! ## The order of the combined metric -/

/-- The order of the exact values `w + h/100000`. -/
theorem exact_metric_lt_iff (w1 h1 w2 h2 : ℤ) (hh1 : 0 ≤ h1 ∧ h1 < 100000)
    (hh2 : 0 ≤ h2 ∧ h2 < 100000) :
    ((w1 : ℚ) + (h1 : ℚ) / 100000 < (w2 : ℚ) + (h2 : ℚ) / 100000)
      ↔ (w1 < w2 ∨ (w1 = w2 ∧ h1 < h2)) := by
  have e : (w1 : ℚ) + (h1 : ℚ) / 100000 < (w2 : ℚ) + (h2 : ℚ) / 100000
      ↔ 100000 * w1 + h1 < 100000 * w2 + h2 := by
    rw [← sub_pos, ← sub_pos (a := 100000 * w2 + h2)]
    have : (w2 : ℚ) + (h2 : ℚ) / 100000 - ((w1 : ℚ) + (h1 : ℚ) / 100000)
        = (((100000 * w2 + h2 - (100000 * w1 + h1) : ℤ)) : ℚ) / 100000 := by
      push_cast; ring
    rw [this, div_pos_iff_of_pos_right (by norm_num)]
    exact_mod_cast Iff.rfl
  rw [e]
  constructor
  · intro h; omega
  · intro h; omega

theorem metric_lt_metric_iff (w1 h1 w2 h2 : ℤ) (hw1 : |w1| ≤ 2 ^ 31) (hw2 : |w2| ≤ 2 ^ 31)
    (hh1 : 0 ≤ h1 ∧ h1 < 100000) (hh2 : 0 ≤ h2 ∧ h2 < 100000) :
    metric w1 h1 < metric w2 h2 ↔ (w1 < w2 ∨ (w1 = w2 ∧ h1 < h2)) := by
  constructor
  · intro h
    by_contra hc
    have hcases : (w2 < w1 ∨ (w2 = w1 ∧ h2 < h1)) ∨ (w1 = w2 ∧ h1 = h2) := by omega
    rcases hcases with hgt | ⟨e1, e2⟩
    · exact lt_asymm h (metric_lt_metric w2 h2 w1 h1 hw2 hw1 hh2 hh1 hgt)
    · rw [e1, e2] at h
      exact lt_irrefl _ h
  · exact metric_lt_metric w1 h1 w2 h2 hw1 hw2 hh1 hh2

/-- C21: the combined metric orders sizes lexicographically: for widths in the
range of `int` and heights in `[0, 100000)`, the double
`(double) w1 + (double) h1 / 100000` is below
`(double) w2 + (double) h2 / 100000` exactly when `w1 < w2`, or `w1 = w2` and
`h1 < h2`, and the same holds for the exact values `w + h/100000`; the size
1 x 99999 comes before 2 x 1 although its area is larger. -/
theorem metric_is_lexicographic (w1 h1 w2 h2 : ℤ) (hw1 : |w1| ≤ 2 ^ 31)
    (hw2 : |w2| ≤ 2 ^ 31) (hh1 : 0 ≤ h1 ∧ h1 < 100000) (hh2 : 0 ≤ h2 ∧ h2 < 100000) :
    (metric w1 h1 < metric w2 h2 ↔ (w1 < w2 ∨ (w1 = w2 ∧ h1 < h2))) ∧
    (((w1 : ℚ) + (h1 : ℚ) / 100000 < (w2 : ℚ) + (h2 : ℚ) / 100000)
      ↔ (w1 < w2 ∨ (w1 = w2 ∧ h1 < h2))) ∧
    (metric 1 99999 < metric 2 1 ∧ (2 : ℤ) * 1 < 1 * 99999) :=
  ⟨metric_lt_metric_iff w1 h1 w2 h2 hw1 hw2 hh1 hh2,
    exact_metric_lt_iff w1 h1 w2 h2 hh1 hh2,
    metric_lt_metric 1 99999 2 1 (by decide) (by decide) (by decide) (by decide)
      (Or.inl (by decide)),
    by decide⟩

/-- Witness of `metric_is_lexicographic`: the sizes 320 x 180 and 640 x 360. -/
theorem metric_is_lexicographic_witness :
    metric 320 180 < metric 640 360
      ↔ ((320 : ℤ) < 640 ∨ ((320 : ℤ) = 640 ∧ (180 : ℤ) < 360)) :=
  (metric_is_lexicographic 320 180 640 360 (by decide) (by decide) (by decide)
    (by decide)).1

/-! ## Scrolling at the ends of the table -/

/-- C22: on a table of `N ≥ 1` presets, if no preset has a metric strictly
below the metric of the current size, scroll-up sets width and height to the
first preset, and if none has a metric strictly above it, scroll-down sets
them to the last preset; so a rectangle below every preset scrolls up to the
first preset and one above every preset scrolls down to the last, which on a
strictly increasing table are the smallest and the largest preset; the new
size is larger, respectively smaller, in the metric when the entry is the
encoding of the size read from it. -/
theorem scroll_at_table_ends (presets : List Double) (r : GdkRectangle)
    (hN : 0 < presets.length) :
    ((∀ j, j < presets.length → ¬ presets.getD j 0 < scroll_widthheight r) →
      (scroll_resize_to_preset GdkScrollDirection.GDK_SCROLL_UP r presets).width
          = toInt (get_w (presets.getD 0 0)) ∧
        (scroll_resize_to_preset GdkScrollDirection.GDK_SCROLL_UP r presets).height
          = toInt (get_h (presets.getD 0 0))) ∧
    ((∀ j, j < presets.length → ¬ scroll_widthheight r < presets.getD j 0) →
      (scroll_resize_to_preset GdkScrollDirection.GDK_SCROLL_DOWN r presets).width
          = toInt (get_w (presets.getD (presets.length - 1) 0)) ∧
        (scroll_resize_to_preset GdkScrollDirection.GDK_SCROLL_DOWN r presets).height
          = toInt (get_h (presets.getD (presets.length - 1) 0))) ∧
    ((∀ j, j < presets.length → scroll_widthheight r < presets.getD j 0) →
      ((scroll_resize_to_preset GdkScrollDirection.GDK_SCROLL_UP r presets).width
          = toInt (get_w (presets.getD 0 0)) ∧
        (scroll_resize_to_preset GdkScrollDirection.GDK_SCROLL_UP r presets).height
          = toInt (get_h (presets.getD 0 0))) ∧
      (metric (toInt (get_w (presets.getD 0 0))) (toInt (get_h (presets.getD 0 0)))
          = presets.getD 0 0 →
        scroll_widthheight r < scroll_widthheight
          (scroll_resize_to_preset GdkScrollDirection.GDK_SCROLL_UP r presets))) ∧
    ((∀ j, j < presets.length → presets.getD j 0 < scroll_widthheight r) →
      ((scroll_resize_to_preset GdkScrollDirection.GDK_SCROLL_DOWN r presets).width
          = toInt (get_w (presets.getD (presets.length - 1) 0)) ∧
        (scroll_resize_to_preset GdkScrollDirection.GDK_SCROLL_DOWN r presets).height
          = toInt (get_h (presets.getD (presets.length - 1) 0))) ∧
      (metric (toInt (get_w (presets.getD (presets.length - 1) 0)))
            (toInt (get_h (presets.getD (presets.length - 1) 0)))
          = presets.getD (presets.length - 1) 0 →
        scroll_widthheight
          (scroll_resize_to_preset GdkScrollDirection.GDK_SCROLL_DOWN r presets)
          < scroll_widthheight r)) ∧
    (presets.Pairwise (fun a b => a < b) →
      ∀ j, j < presets.length →
        presets.getD 0 0 ≤ presets.getD j 0 ∧
        presets.getD j 0 ≤ presets.getD (presets.length - 1) 0) := by
  obtain ⟨u1, u2⟩ := scroll_up_size r presets
  obtain ⟨d1, d2⟩ := scroll_down_size r presets
  have hup : (∀ j, j < presets.length → ¬ presets.getD j 0 < scroll_widthheight r) →
      (scroll_resize_to_preset GdkScrollDirection.GDK_SCROLL_UP r presets).width
          = toInt (get_w (presets.getD 0 0)) ∧
        (scroll_resize_to_preset GdkScrollDirection.GDK_SCROLL_UP r presets).height
          = toInt (get_h (presets.getD 0 0)) := by
    intro h
    have h0 := search_down_eq_zero presets (scroll_widthheight r) (presets.length - 1)
      (fun j hj => h j (by omega))
    rw [h0] at u1 u2
    exact ⟨u1, u2⟩
  have hdown : (∀ j, j < presets.length → ¬ scroll_widthheight r < presets.getD j 0) →
      (scroll_resize_to_preset GdkScrollDirection.GDK_SCROLL_DOWN r presets).width
          = toInt (get_w (presets.getD (presets.length - 1) 0)) ∧
        (scroll_resize_to_preset GdkScrollDirection.GDK_SCROLL_DOWN r presets).height
          = toInt (get_h (presets.getD (presets.length - 1) 0)) := by
    intro h
    have h0 := search_up_eq_last presets (scroll_widthheight r) (presets.length - 1)
      (fun j hj => h j (by omega))
    rw [h0] at d1 d2
    exact ⟨d1, d2⟩
  refine ⟨hup, hdown, ?_, ?_, ?_⟩
  · intro h
    have hs := hup (fun j hj => lt_asymm (h j hj))
    refine ⟨hs, ?_⟩
    intro hc
    rw [scroll_widthheight_eq
      (scroll_resize_to_preset GdkScrollDirection.GDK_SCROLL_UP r presets), hs.1, hs.2, hc]
    exact h 0 hN
  · intro h
    have hs := hdown (fun j hj => lt_asymm (h j hj))
    refine ⟨hs, ?_⟩
    intro hc
    rw [scroll_widthheight_eq
      (scroll_resize_to_preset GdkScrollDirection.GDK_SCROLL_DOWN r presets), hs.1, hs.2, hc]
    exact h _ (by omega)
  · intro hs j hj
    exact ⟨getD_le_getD_of_le presets hs 0 j (Nat.zero_le j) hj,
      getD_le_getD_of_le presets hs j (presets.length - 1) (by omega) (by omega)⟩

/-- Witness of `scroll_at_table_ends`: a rectangle of the size 100 x 50 and the
table of 160 x 90, 320 x 180 and 640 x 360; scroll-up takes the first
preset. -/
theorem scroll_at_table_ends_witness :
    (scroll_resize_to_preset GdkScrollDirection.GDK_SCROLL_UP ⟨130, 130, 100, 50⟩
        [metric 160 90, metric 320 180, metric 640 360]).width
      = toInt (get_w ([metric 160 90, metric 320 180, metric 640 360].getD 0 0)) :=
  have h0 : metric 100 50 < metric 160 90 :=
    metric_lt_metric 100 50 160 90 (by decide) (by decide) (by decide) (by decide)
      (Or.inl (by decide))
  have h1 : metric 100 50 < metric 320 180 := lt_trans h0 three_presets_lt.1
  have h2 : metric 100 50 < metric 640 360 := lt_trans h1 three_presets_lt.2
  ((scroll_at_table_ends [metric 160 90, metric 320 180, metric 640 360]
    ⟨130, 130, 100, 50⟩ (three_length_pos _ _ _)).1
    (by
      intro j hj
      have hj3 : j < 3 := hj
      rw [scroll_widthheight_mk]
      interval_cases j
      · rw [three_getD_zero]; exact lt_asymm h0
      · rw [three_getD_one]; exact lt_asymm h1
      · rw [three_getD_two]; exact lt_asymm h2)).1

end Silentcast
